import Mathlib

open scoped Classical

/-!
Shallow embedding of the microscopic traffic simulation core
(`TrafficModel` class of the repository, file `src/unnamed/part_000`),
together with theorems checking the natural-language specification
against it.

Conventions of the embedding:
* JavaScript numbers are modelled as real numbers (`ℝ`).
* `Math.random()` is modelled as an explicit stream of reals threaded
  through every stochastic operation (`Rng` below); one call to
  `Math.random()` consumes one stream element.
* Mutation of the vehicle array is modelled by explicit state passing:
  the in-place element mutations of the decide loop become `List.set`,
  the backwards `splice` loop of the integration phase becomes a
  one-pass keep/drop recursion over the list.
* `setTimeout` (used only by `triggerAccident` for the 8 s wall-clock
  restoration) is outside the step-level model; `triggerAccident` below
  models the immediate, synchronous part of the source method.
-/

namespace Traffic

/-- Vehicle type tag, from `src/types.ts`. -/
inductive VehicleType where
  | CAR : VehicleType
  | TRUCK : VehicleType
deriving DecidableEq, Repr

/-- Per-vehicle state, from `src/types.ts` (interface `Vehicle`).
`isCrashed` is the dynamic property `(veh as any).isCrashed` that the
source attaches to vehicles in `triggerAccident`. -/
structure Vehicle where
  id : ℕ
  x : ℝ
  y : ℝ
  lane : ℤ
  v : ℝ
  a : ℝ
  length : ℝ
  width : ℝ
  color : String
  type : VehicleType
  laneChangeTimer : ℝ
  laneChangeDirection : ℤ
  targetSpeed : ℝ
  isCrashed : Bool

/-- Simulation configuration, from `src/types.ts` (interface
`SimulationConfig`).  The source field `truckRatio` is renamed
`truckShare` here (same meaning: Bernoulli probability of spawning a
truck). -/
structure SimulationConfig where
  inflowRate : ℝ
  timeScale : ℝ
  truckShare : ℝ
  isPaused : Bool
  roadLength : ℝ
  politeness : ℝ
  safeTimeGap : ℝ
  maxAccel : ℝ
  accelerationNoise : ℝ

/-- A fundamental-diagram sample `{k, q}` (density, flow). -/
structure FDPoint where
  k : ℝ
  q : ℝ

/-- Snapshot returned by `getStats`, from `src/types.ts`
(interface `SimulationStats`). -/
structure SimulationStats where
  count : ℕ
  avgSpeed : ℝ
  density : ℝ
  flow : ℝ
  points : List FDPoint

/-- Explicit model of the ambient random source (`Math.random()`):
an infinite stream of draws plus the index of the next unconsumed one. -/
structure Rng where
  stream : ℕ → ℝ
  idx : ℕ

/-- The value of the next `Math.random()` call. -/
def Rng.val (r : Rng) : ℝ := r.stream r.idx

/-- Consume one `Math.random()` call. -/
def Rng.advance (r : Rng) : Rng := ⟨r.stream, r.idx + 1⟩

/-- Whole-model state: the fields of class `TrafficModel`
(`src/unnamed/part_000`, lines 12-23).  The source field
`lanes : number = 3` is never reassigned anywhere in the repository, so
it is modelled by the constant `lanesCount` below. -/
structure TrafficModel where
  vehicles : List Vehicle
  roadLength : ℝ
  nextId : ℕ
  timeSinceLastSpawn : ℝ
  fdPoints : List FDPoint
  statsTimer : ℝ
  blockedLane : Option ℤ
  blockedLocation : Option ℝ

namespace TrafficModel

/-! ### Physics constants (source lines 3-10) -/

/-- Integration base step (s): `DT = 1 / 60`. -/
noncomputable def DT : ℝ := 1 / 60

/-- IDM exponent `δ = 4`. -/
def IDM_DELTA : ℕ := 4

/-- Jam distance `s0 = 2` m. -/
noncomputable def JAM_DISTANCE : ℝ := 2

/-- Comfortable deceleration `b = 2.0` m/s². -/
noncomputable def COMFORT_DECEL : ℝ := 2.0

/-- MOBIL switching threshold `0.1`. -/
noncomputable def MOBIL_THRESHOLD : ℝ := 0.1

/-- MOBIL keep-right bias `0.2`. -/
noncomputable def MOBIL_BIAS : ℝ := 0.2

/-- Number of lanes: the source initializes `lanes: number = 3` and never
writes the field again. -/
def lanesCount : ℤ := 3

/-! ### IDM accelerator (source lines 95-118) -/

/-- `TrafficModel.calculateAcceleration`: the Intelligent Driver Model.
Direct translation of source lines 95-118; `null` leader speed / gap
become `Option.none`.  Being a Lean `def`, it is a pure function of its
arguments. -/
noncomputable def calculateAcceleration (v : ℝ) (vLeader : Option ℝ)
    (gap : Option ℝ) (desiredSpeed : ℝ) (config : SimulationConfig) : ℝ :=
  let a_free := config.maxAccel * (1 - (v / desiredSpeed) ^ IDM_DELTA)
  match gap, vLeader with
  | some g, some vl =>
      let delta_v := v - vl
      let s_star := JAM_DISTANCE + v * config.safeTimeGap +
        (v * delta_v) / (2 * Real.sqrt (config.maxAccel * COMFORT_DECEL))
      let effectiveGap := max 0.1 g
      let a_int := -config.maxAccel * (s_star / effectiveGap) ^ 2
      a_free + a_int
  | _, _ => a_free

/-- The IDM acceleration as the specification (§4.2) words it:
free term `a_max·(1 − (v/v0)^4)`; if a leader and a gap are present,
subtract `a_max·(s*/max(s, 0.1))²` with
`s* = 2 + v·T + v·(v − v_l)/(2·√(a_max·2.0))`. -/
noncomputable def idmSpecFormula (v : ℝ) (vLeader : Option ℝ)
    (gap : Option ℝ) (v0 : ℝ) (config : SimulationConfig) : ℝ :=
  match vLeader, gap with
  | some vl, some s =>
      let sStar := 2 + v * config.safeTimeGap +
        v * (v - vl) / (2 * Real.sqrt (config.maxAccel * 2.0))
      config.maxAccel * (1 - (v / v0) ^ 4) -
        config.maxAccel * (sStar / max s 0.1) ^ 2
  | _, _ => config.maxAccel * (1 - (v / v0) ^ 4)

end TrafficModel

end Traffic

namespace Traffic

open TrafficModel

/-- C2: `calculateAcceleration` computes exactly the IDM formula stated in
the specification: `a_max·(1 − (v/v0)^4)` when the leader speed or the gap
is absent, and otherwise that free term minus
`a_max·(s*/max(gap, 0.1))²` with
`s* = 2 + v·T + v·(v − vLeader)/(2·√(a_max·2.0))`,
where `T = config.safeTimeGap` and `a_max = config.maxAccel`.
As a Lean `def` it is a pure function of its arguments. -/
theorem calculateAcceleration_eq_spec (v : ℝ) (vLeader gap : Option ℝ)
    (v0 : ℝ) (config : SimulationConfig) :
    calculateAcceleration v vLeader gap v0 config =
      idmSpecFormula v vLeader gap v0 config := by
  cases gap with
  | none =>
      cases vLeader <;>
        simp [calculateAcceleration, idmSpecFormula, IDM_DELTA]
  | some g =>
      cases vLeader with
      | none => simp [calculateAcceleration, idmSpecFormula, IDM_DELTA]
      | some vl =>
          simp only [calculateAcceleration, idmSpecFormula, IDM_DELTA,
            JAM_DISTANCE, COMFORT_DECEL]
          rw [max_comm (0.1 : ℝ) g]
          ring

/-- C9: IDM laws.  (a) At the desired speed with no leader the
acceleration vanishes: `calculateAcceleration v0 none none v0 config = 0`
for `v0 > 0`.  (b) If the gap equals the computed `s*` and is at least
`0.1`, the interaction term is exactly `−a_max`: the result equals the
free term minus `config.maxAccel`. -/
theorem idm_laws (v0 : ℝ) (config : SimulationConfig) (hv0 : 0 < v0)
    (v vl s : ℝ)
    (hs : s = JAM_DISTANCE + v * config.safeTimeGap +
      (v * (v - vl)) / (2 * Real.sqrt (config.maxAccel * COMFORT_DECEL)))
    (hs01 : 0.1 ≤ s) :
    calculateAcceleration v0 none none v0 config = 0 ∧
    calculateAcceleration v (some vl) (some s) v0 config =
      config.maxAccel * (1 - (v / v0) ^ 4) - config.maxAccel := by
  constructor
  · simp [calculateAcceleration, IDM_DELTA, div_self (ne_of_gt hv0)]
  · have hs0 : s ≠ 0 := by nlinarith
    have hmax : max (0.1 : ℝ) s = s := max_eq_right (by linarith)
    simp only [calculateAcceleration, IDM_DELTA]
    rw [hmax, ← hs, div_self hs0]
    ring

/-- Witness for `idm_laws` at `v0 = 30`, `maxAccel = 2`, `T = 1`,
`v = vl = 10`, gap `s = 12 = s*` (here `√(2·2) = 2`). -/
theorem idm_laws_witness :
    calculateAcceleration 30 none none 30
      ⟨1000, 1, 0, false, 5000, 0.2, 1, 2, 0⟩ = 0 ∧
    calculateAcceleration 10 (some 10) (some 12) 30
      ⟨1000, 1, 0, false, 5000, 0.2, 1, 2, 0⟩ =
      (2 : ℝ) * (1 - ((10 : ℝ) / 30) ^ 4) - 2 := by
  have h :=
    idm_laws 30 ⟨1000, 1, 0, false, 5000, 0.2, 1, 2, 0⟩ (by norm_num)
      10 10 12
      (by
        simp only [JAM_DISTANCE, COMFORT_DECEL]
        norm_num)
      (by norm_num)
  exact h

namespace TrafficModel

/-! ### Neighbor query (source lines 58-92)

`getLeader` and `getFollower` are the same loop up to the sign of the
distance, so the loop is factored into `nearScan` with a `score`
function; `getLeader` instantiates it with `other.x − vehicle.x`,
`getFollower` with `vehicle.x − other.x`.  The running `minDist` of the
source always equals the score of the current best candidate
(`Infinity` while there is none), so the accumulator stores just the
candidate. -/

/-- The scanning loop shared by `getLeader` and `getFollower`:
skip `other` when it is the subject (same `id`) or on another lane;
otherwise take it as the new best when its score (distance) is strictly
positive and strictly below the current minimum. -/
noncomputable def nearScan (veh : Vehicle) (targetLane : ℤ)
    (score : Vehicle → ℝ) : List Vehicle → Option Vehicle → Option Vehicle
  | [], best => best
  | other :: rest, best =>
      if other.id = veh.id then nearScan veh targetLane score rest best
      else if other.lane ≠ targetLane then nearScan veh targetLane score rest best
      else
        match best with
        | none =>
            if 0 < score other then nearScan veh targetLane score rest (some other)
            else nearScan veh targetLane score rest none
        | some b =>
            if 0 < score other ∧ score other < score b then
              nearScan veh targetLane score rest (some other)
            else nearScan veh targetLane score rest (some b)

/-- `TrafficModel.getLeader` (source lines 58-75). -/
noncomputable def getLeader (vehicles : List Vehicle) (veh : Vehicle)
    (targetLane : ℤ) : Option Vehicle :=
  nearScan veh targetLane (fun o => o.x - veh.x) vehicles none

/-- `TrafficModel.getFollower` (source lines 77-92). -/
noncomputable def getFollower (vehicles : List Vehicle) (veh : Vehicle)
    (targetLane : ℤ) : Option Vehicle :=
  nearScan veh targetLane (fun o => veh.x - o.x) vehicles none

/-! ### MOBIL lane change (source lines 196-259) -/

/-- The `totalIncentive` quantity computed for one candidate lane
(source lines 219-250): ego benefit plus politeness times the old
follower's acceleration change, plus the keep-right bias additions. -/
noncomputable def mobilIncentive (vehicles : List Vehicle)
    (config : SimulationConfig) (veh : Vehicle) (accCurrent : ℝ)
    (targetLane : ℤ) : ℝ :=
  let newLeader := getLeader vehicles veh targetLane
  let oldFollower := getFollower vehicles veh veh.lane
  let gapNew := newLeader.map (fun l => l.x - veh.x - l.length)
  let vNewLeader := newLeader.map (fun l => l.v)
  let accNew := calculateAcceleration veh.v vNewLeader gapNew
    veh.targetSpeed config
  let egoBenefit := accNew - accCurrent
  let politenessTerm : ℝ :=
    match oldFollower with
    | none => 0
    | some f =>
        let gapOld := veh.x - f.x - veh.length
        let accOldFollowerCurr := calculateAcceleration f.v (some veh.v)
          (some gapOld) f.targetSpeed config
        let myLeader := getLeader vehicles veh veh.lane
        let gapOldFuture := myLeader.map (fun l => l.x - f.x - l.length)
        let vMyLeader := myLeader.map (fun l => l.v)
        let accOldFollowerNew := calculateAcceleration f.v vMyLeader
          gapOldFuture f.targetSpeed config
        accOldFollowerNew - accOldFollowerCurr
  egoBenefit + config.politeness * politenessTerm +
    (if veh.lane < targetLane then MOBIL_BIAS else 0) +
    (if targetLane < veh.lane then -MOBIL_BIAS else 0)

/-- One candidate lane evaluation plus the early `return` of the source,
as a recursion over the candidate list (source lines 204-258). -/
noncomputable def tryLanes (vehicles : List Vehicle)
    (config : SimulationConfig) (veh : Vehicle) (accCurrent : ℝ) :
    List ℤ → Vehicle
  | [] => veh
  | targetLane :: restLanes =>
      -- 2. Incentive criterion (evaluated only when safety passes)
      let incentivePart : Vehicle :=
        if MOBIL_THRESHOLD <
            mobilIncentive vehicles config veh accCurrent targetLane then
          { veh with
            lane := targetLane
            laneChangeTimer := 3.0
            laneChangeDirection := if veh.y < (targetLane : ℝ) then 1 else -1 }
        else tryLanes vehicles config veh accCurrent restLanes
      -- 1. Safety criterion
      match getFollower vehicles veh targetLane with
      | some f =>
          let gapBack := veh.x - f.x - veh.length
          if calculateAcceleration f.v (some veh.v) (some gapBack)
              f.targetSpeed config < -3.0 then
            tryLanes vehicles config veh accCurrent restLanes
          else incentivePart
      | none => incentivePart

/-- `TrafficModel.checkLaneChange` (source lines 196-259): build the
candidate list (`lane−1` if `lane > 0`, then `lane+1` if
`lane < lanes−1`) and evaluate the candidates in order. -/
noncomputable def checkLaneChange (vehicles : List Vehicle)
    (config : SimulationConfig) (veh : Vehicle) (accCurrent : ℝ) : Vehicle :=
  tryLanes vehicles config veh accCurrent
    ((if 0 < veh.lane then [veh.lane - 1] else []) ++
      (if veh.lane < lanesCount - 1 then [veh.lane + 1] else []))

end TrafficModel


namespace TrafficModel

/-! ### Decide phase of `step` (source lines 126-155)

The `for (const veh of this.vehicles)` loop mutates the element it is
visiting in place, so later iterations (and the neighbor lookups inside
them) see the updated earlier elements.  This is modelled as an
index-by-index `List.set` recursion.  The fuel argument equals
`vehicles.length − i`; `List.set` never changes the length, so starting
with fuel `vehicles.length` and `i = 0` visits every index exactly
once, like the source loop. -/

/-- Per-index body of the decide loop (source lines 127-155). -/
noncomputable def decideGo (config : SimulationConfig) (dt : ℝ) :
    ℕ → ℕ → List Vehicle → Rng → List Vehicle × Rng
  | 0, _, vehicles, r => (vehicles, r)
  | fuel + 1, i, vehicles, r =>
      if h : i < vehicles.length then
        let veh := vehicles.get ⟨i, h⟩
        if veh.isCrashed then
          decideGo config dt fuel (i + 1)
            (vehicles.set i { veh with a := 0, v := 0 }) r
        else
          let leader := getLeader vehicles veh veh.lane
          let gap := leader.map (fun l => l.x - veh.x - l.length)
          let vLeader := leader.map (fun l => l.v)
          let accIdm := calculateAcceleration veh.v vLeader gap
            veh.targetSpeed config
          -- perceptual noise: one Math.random() consumed iff the guard holds
          let noisy : ℝ × Rng :=
            if 0 < config.accelerationNoise ∧ 1 < veh.v then
              (accIdm + (r.val - 0.5) * config.accelerationNoise, r.advance)
            else (accIdm, r)
          let accCurrent := noisy.1
          let r' := noisy.2
          let veh1 := { veh with a := accCurrent }
          let vehicles1 := vehicles.set i veh1
          if veh1.laneChangeTimer ≤ 0 then
            decideGo config dt fuel (i + 1)
              (vehicles1.set i (checkLaneChange vehicles1 config veh1 accCurrent)) r'
          else
            decideGo config dt fuel (i + 1)
              (vehicles1.set i
                { veh1 with laneChangeTimer := veh1.laneChangeTimer - dt }) r'
      else (vehicles, r)

/-! ### Integration phase (source lines 157-179) -/

/-- Euler update of a single vehicle (source lines 160-173). -/
noncomputable def integrateVeh (dt : ℝ) (veh : Vehicle) : Vehicle :=
  let v1 := veh.v + veh.a * dt
  let v2 := if v1 < 0 then 0 else v1
  let x1 := veh.x + v2 * dt
  if 0.05 < |veh.y - (veh.lane : ℝ)| then
    { veh with
      v := v2, x := x1
      y := veh.y + Real.sign ((veh.lane : ℝ) - veh.y) * 2.5 * dt }
  else
    { veh with v := v2, x := x1, y := (veh.lane : ℝ), laneChangeDirection := 0 }

/-- The integration loop (source lines 158-179).  The source iterates the
array backwards and `splice`s out vehicles past the road end; element
updates are independent of each other, so this is the same as a single
forward pass that keeps each updated vehicle unless its position exceeds
`roadLength`. -/
noncomputable def integrateLoop (roadLength dt : ℝ) :
    List Vehicle → List Vehicle
  | [] => []
  | veh :: rest =>
      let veh' := integrateVeh dt veh
      if roadLength < veh'.x then integrateLoop roadLength dt rest
      else veh' :: integrateLoop roadLength dt rest

/-! ### Spawner (source lines 261-310) -/

/-- `getCarColor` (source lines 312-318). -/
noncomputable def getCarColor (targetSpeed : ℝ) : String :=
  if 32 < targetSpeed then "#06b6d4"
  else if 28 < targetSpeed then "#10b981"
  else "#f59e0b"

/-- `vehicles.filter(lane).reduce((prev, curr) => (prev && prev.x < curr.x) ? prev : curr, null)`
(source line 275): the vehicle with minimal `x` on the lane, later
elements winning ties; `none` when the lane is empty. -/
noncomputable def lastVehOnLane (vehicles : List Vehicle) (l : ℤ) :
    Option Vehicle :=
  (vehicles.filter (fun v => v.lane = l)).foldl
    (fun prev curr =>
      match prev with
      | none => some curr
      | some p => if p.x < curr.x then some p else some curr)
    none

/-- `lastPos[l]` (source lines 274-277): the minimal `x` on lane `l`,
where `none` stands for the JavaScript `Infinity` of an empty lane. -/
noncomputable def lastPos (vehicles : List Vehicle) (l : ℤ) : Option ℝ :=
  (lastVehOnLane vehicles l).map (fun v => v.x)

/-- `lastPos[i] > lastPos[j]` with `none` playing `Infinity`. -/
noncomputable def posGT : Option ℝ → Option ℝ → Prop
  | none, none => False
  | none, some _ => True
  | some _, none => False
  | some a, some b => b < a

/-- `lastPos[bestLane] > 40` with `none` playing `Infinity`. -/
noncomputable def clearanceOK : Option ℝ → Prop
  | none => True
  | some a => 40 < a

/-- `lanes.reduce((i, j) => (lastPos[i] > lastPos[j] ? i : j))` over
`[0, 1, 2]` (source line 280). -/
noncomputable def bestLaneOf (vehicles : List Vehicle) : ℤ :=
  let lp := lastPos vehicles
  let b1 : ℤ := if posGT (lp 0) (lp 1) then 0 else 1
  if posGT (lp b1) (lp 2) then b1 else 2

/-- `TrafficModel.spawnVehicle` (source lines 289-310): consumes two
`Math.random()` draws (type, then speed) and appends the new vehicle. -/
noncomputable def spawnVehicle (lane : ℤ) (truckShare : ℝ)
    (s : TrafficModel) (r : Rng) : TrafficModel × Rng :=
  let isTruck := r.val < truckShare
  let r1 := r.advance
  let speedKmH : ℝ :=
    if isTruck then 85 + (r1.val - 0.5) * 10 else 110 + (r1.val - 0.5) * 20
  let r2 := r1.advance
  let targetSpeed := speedKmH / 3.6
  ({ s with
      nextId := s.nextId + 1
      vehicles := s.vehicles ++
        [{ id := s.nextId
           x := 0
           y := (lane : ℝ)
           lane := lane
           v := targetSpeed * 0.9
           a := 0
           length := if isTruck then 14 else 4.5
           width := if isTruck then 2.6 else 2.0
           type := if isTruck then VehicleType.TRUCK else VehicleType.CAR
           color := if isTruck then "#a78bfa" else getCarColor targetSpeed
           laneChangeTimer := 0
           laneChangeDirection := 0
           targetSpeed := targetSpeed
           isCrashed := false }] }, r2)

/-- `TrafficModel.handleSpawning` (source lines 261-287).  The attempt
threshold consumes one `Math.random()` draw on every call (it sits in the
`if` condition). -/
noncomputable def handleSpawning (dt : ℝ) (config : SimulationConfig)
    (s : TrafficModel) (r : Rng) : TrafficModel × Rng :=
  let t := s.timeSinceLastSpawn + dt
  let s0 := { s with timeSinceLastSpawn := t }
  let spawnRatePerSec := config.inflowRate / 3600
  let avgInterarrivalTime := 1 / spawnRatePerSec
  let u := r.val
  let r1 := r.advance
  if (u * 0.4 + 0.8) * avgInterarrivalTime < t then
    let bestLane := bestLaneOf s0.vehicles
    if clearanceOK (lastPos s0.vehicles bestLane) then
      let sp := spawnVehicle bestLane config.truckShare s0 r1
      ({ sp.1 with timeSinceLastSpawn := 0 }, sp.2)
    else (s0, r1)
  else (s0, r1)

/-! ### Stats (source lines 320-341) -/

/-- `TrafficModel.getStats` (source lines 320-341).  The source returns a
shallow copy of `fdPoints`; lists are immutable here, so the copy is the
list itself. -/
noncomputable def getStats (s : TrafficModel) : SimulationStats :=
  let count := s.vehicles.length
  if count = 0 then
    { count := 0, avgSpeed := 0, density := 0, flow := 0, points := s.fdPoints }
  else
    let totalV := (s.vehicles.map (fun v => v.v)).sum
    let avgV := totalV / (count : ℝ) * 3.6
    let density := (count : ℝ) / (s.roadLength / 1000)
    let flow := density * avgV
    { count := count, avgSpeed := avgV, density := density, flow := flow
      points := s.fdPoints }

/-! ### Sort phase (source line 124)

`this.vehicles.sort((a, b) => b.x - a.x)`: JavaScript `Array.prototype.sort`
is stable, so this is a stable sort by `x` descending, modelled as a
stable insertion sort. -/

/-- Insert a vehicle into a list sorted by `x` descending, after all
elements with strictly larger `x` and before elements with equal or
smaller `x` (stability: the inserted element comes from earlier in the
original order only when `insertDesc` is used by `sortByXDesc` below). -/
noncomputable def insertDesc (veh : Vehicle) : List Vehicle → List Vehicle
  | [] => [veh]
  | w :: rest =>
      if veh.x < w.x then w :: insertDesc veh rest else veh :: w :: rest

/-- Stable sort by `x` descending (source line 124). -/
noncomputable def sortByXDesc : List Vehicle → List Vehicle
  | [] => []
  | veh :: rest => insertDesc veh (sortByXDesc rest)

/-! ### `step` (source lines 120-194) -/

/-- `TrafficModel.step` (source lines 120-194): sort, decide, integrate,
spawn, collect stats. -/
noncomputable def step (config : SimulationConfig) (s : TrafficModel)
    (r : Rng) : TrafficModel × Rng :=
  let dt := DT * config.timeScale
  let sorted := sortByXDesc s.vehicles
  let dec := decideGo config dt sorted.length 0 sorted r
  let integrated := integrateLoop s.roadLength dt dec.1
  let s1 := { s with vehicles := integrated }
  let sp := handleSpawning dt config s1 dec.2
  let s2 := sp.1
  let r2 := sp.2
  let st := s2.statsTimer + dt
  if 1.0 < st then
    let stats := getStats s2
    let fd1 :=
      if 0 < stats.count then
        let pushed := s2.fdPoints ++ [{ k := stats.density, q := stats.flow }]
        if 200 < pushed.length then pushed.drop 1 else pushed
      else s2.fdPoints
    ({ s2 with fdPoints := fd1, statsTimer := 0 }, r2)
  else ({ s2 with statsTimer := st }, r2)

/-! ### `reset` and `triggerAccident` (source lines 29-56) -/

/-- `TrafficModel.reset` (source lines 29-36).  Note that `statsTimer` is
not touched by the source method. -/
def reset (s : TrafficModel) : TrafficModel :=
  { s with
    vehicles := []
    nextId := 1
    timeSinceLastSpawn := 0
    blockedLane := none
    blockedLocation := none
    fdPoints := [] }

/-- Eligibility predicate of `triggerAccident`'s `find` (source line 39):
`v.lane === 1 && v.x > 1000 && v.x < 4000`. -/
def accidentEligible (v : Vehicle) : Prop :=
  v.lane = 1 ∧ 1000 < v.x ∧ v.x < 4000

/-- `vehicles.find(...)` plus the in-place mutation of the found vehicle
(source lines 39-45): returns the updated list together with the
candidate, or `none` when no vehicle is eligible. -/
noncomputable def triggerGo : List Vehicle → Option (List Vehicle × Vehicle)
  | [] => none
  | v :: rest =>
      if accidentEligible v then
        some (({ v with v := 0, color := "#ef4444", isCrashed := true } :: rest), v)
      else (triggerGo rest).map (fun p => (v :: p.1, p.2))

/-- `TrafficModel.triggerAccident` (source lines 38-56): the immediate,
synchronous effect.  The 8 s `setTimeout` restoration runs on the host's
wall clock and is outside this step-level model. -/
noncomputable def triggerAccident (s : TrafficModel) : TrafficModel :=
  match triggerGo s.vehicles with
  | none => s
  | some (vehicles', c) =>
      { s with
        vehicles := vehicles'
        blockedLane := some c.lane
        blockedLocation := some c.x }

/-- The states visited by repeated `step` calls with a per-call
configuration sequence: the trajectory of a run. -/
noncomputable def runTrace : List SimulationConfig → TrafficModel → Rng →
    List TrafficModel
  | [], _, _ => []
  | config :: rest, s, r =>
      let p := step config s r
      p.1 :: runTrace rest p.1 p.2

end TrafficModel


/-! ### Shared concrete fixtures for witnesses and counterexamples -/

/-- The state built by `new TrafficModel(5000)`: empty vehicle list and
the field initializers of the class. -/
def initialModel : TrafficModel :=
  { vehicles := []
    roadLength := 5000
    nextId := 1
    timeSinceLastSpawn := 0
    fdPoints := []
    statsTimer := 0
    blockedLane := none
    blockedLocation := none }

/-- A template vehicle for concrete examples. -/
def baseVeh : Vehicle :=
  { id := 1
    x := 0
    y := 0
    lane := 0
    v := 30
    a := 0
    length := 4.5
    width := 2
    color := "c"
    type := VehicleType.CAR
    laneChangeTimer := 0
    laneChangeDirection := 0
    targetSpeed := 30
    isCrashed := false }

/-- A template configuration for concrete examples: `inflowRate = 500`,
`timeScale = 1`, no trucks, `politeness = 0.2`, `T = 1`,
`maxAccel = 1.5`, no noise. -/
def baseConfig : SimulationConfig :=
  { inflowRate := 500
    timeScale := 1
    truckShare := 0
    isPaused := false
    roadLength := 5000
    politeness := 0.2
    safeTimeGap := 1
    maxAccel := 1.5
    accelerationNoise := 0 }

/-- A fixed random stream: every `Math.random()` draw returns `0`. -/
def zeroRng : Rng := ⟨fun _ => 0, 0⟩

/-! ### C4: determinism -/

/-- C4: determinism.  The embedding threads the random source (the model
of `Math.random()`) explicitly through `step`; it is the only stochastic
input, `triggerAccident` (the sole wall-clock-dependent operation) is not
involved, and `step` is a pure function.  Hence two runs from identical
initial state, with an identical config sequence, identical call cadence
and a pointwise identical random stream produce identical state
trajectories, and identical statistics snapshots at every step. -/
theorem run_deterministic (s₁ s₂ : TrafficModel)
    (cfgs₁ cfgs₂ : List SimulationConfig) (r₁ r₂ : Rng)
    (hs : s₁ = s₂) (hc : cfgs₁ = cfgs₂)
    (hstream : ∀ i, r₁.stream i = r₂.stream i) (hidx : r₁.idx = r₂.idx) :
    runTrace cfgs₁ s₁ r₁ = runTrace cfgs₂ s₂ r₂ ∧
      (runTrace cfgs₁ s₁ r₁).map getStats =
        (runTrace cfgs₂ s₂ r₂).map getStats := by
  have hr : r₁ = r₂ := by
    cases r₁
    cases r₂
    simp only [Rng.mk.injEq]
    exact ⟨funext hstream, hidx⟩
  subst hs hc hr
  exact ⟨rfl, rfl⟩

/-- Witness for `run_deterministic` on a concrete run. -/
theorem run_deterministic_witness :
    runTrace [baseConfig] initialModel zeroRng =
        runTrace [baseConfig] initialModel zeroRng ∧
      (runTrace [baseConfig] initialModel zeroRng).map getStats =
        (runTrace [baseConfig] initialModel zeroRng).map getStats :=
  run_deterministic initialModel initialModel [baseConfig] [baseConfig]
    zeroRng zeroRng rfl rfl (fun _ => rfl) rfl

/-! ### C5: triggerAccident -/

/-- If no vehicle is eligible, the `find` of `triggerAccident` fails. -/
lemma triggerGo_eq_none (l : List Vehicle)
    (h : ∀ v ∈ l, ¬ accidentEligible v) : triggerGo l = none := by
  induction l with
  | nil => rfl
  | cons v rest ih =>
      rw [triggerGo, if_neg (h v (List.mem_cons_self v rest))]
      rw [ih fun u hu => h u (List.mem_cons_of_mem v hu)]
      rfl

/-- If the vehicle found by `triggerAccident` already carries the values
the method writes, the vehicle list is unchanged. -/
lemma triggerGo_fixed (l l' : List Vehicle) (c : Vehicle)
    (hfind : triggerGo l = some (l', c)) (hv : c.v = 0)
    (hcol : c.color = "#ef4444") (hcr : c.isCrashed = true) : l' = l := by
  induction l generalizing l' with
  | nil => simp [triggerGo] at hfind
  | cons v rest ih =>
      rw [triggerGo] at hfind
      by_cases helig : accidentEligible v
      · rw [if_pos helig] at hfind
        simp only [Option.some.injEq, Prod.mk.injEq] at hfind
        obtain ⟨hl, hc⟩ := hfind
        subst hc
        have : { v with v := 0, color := "#ef4444", isCrashed := true } = v := by
          cases v
          simp_all
        rw [this] at hl
        exact hl.symm
      · rw [if_neg helig] at hfind
        cases hgo : triggerGo rest with
        | none => rw [hgo] at hfind; simp at hfind
        | some p =>
            rw [hgo] at hfind
            simp only [Option.map_some', Option.some.injEq, Prod.mk.injEq] at hfind
            obtain ⟨hl, hc⟩ := hfind
            have := ih p.1 (by rw [hgo, ← hc])
            rw [← hl, this]

/-- C5 (amended): `triggerAccident()` with no vehicle on lane 1 with
`1000 < x < 4000` leaves the state unchanged and, being a total function,
returns normally.  The method does not test whether an incident is
already active; a further call re-applies the injection to the first
eligible vehicle in array order.  When that vehicle is the
already-crashed one and the blockage record already points at it, the
call leaves the state unchanged; but when a different, non-crashed
eligible vehicle precedes it, that vehicle is crashed as well
(see the counterexample), so several crashed vehicles can coexist; only
the blockage record (`blockedLane`, `blockedLocation`) is unique. -/
theorem triggerAccident_amended (s : TrafficModel) :
    ((∀ v ∈ s.vehicles, ¬ accidentEligible v) → triggerAccident s = s) ∧
      (∀ l' c, triggerGo s.vehicles = some (l', c) →
        c.v = 0 → c.color = "#ef4444" → c.isCrashed = true →
        s.blockedLane = some c.lane → s.blockedLocation = some c.x →
        triggerAccident s = s) := by
  constructor
  · intro h
    rw [triggerAccident, triggerGo_eq_none s.vehicles h]
  · intro l' c hfind hv hcol hcr hbl hbloc
    rw [triggerAccident, hfind]
    have hl : l' = s.vehicles := triggerGo_fixed s.vehicles l' c hfind hv hcol hcr
    cases s
    simp_all

/-- Witness for `triggerAccident_amended` on the empty model. -/
theorem triggerAccident_amended_witness :
    triggerAccident initialModel = initialModel :=
  (triggerAccident_amended initialModel).1 (by intro v hv; simp [initialModel] at hv)

/-- A state with one active incident: the crashed vehicle sits at
`x = 3500` on lane 1 and the blockage record points at it; a second
eligible vehicle (not crashed, e.g. having changed into lane 1 behind
the queue) sits at `x = 3800`, ahead of it in the sorted array order. -/
def accidentState : TrafficModel :=
  { initialModel with
    vehicles :=
      [{ baseVeh with id := 2, x := 3800, lane := 1 },
       { baseVeh with
          id := 1
          x := 3500
          lane := 1
          v := 0
          color := "#ef4444"
          isCrashed := true }]
    nextId := 3
    blockedLane := some 1
    blockedLocation := some 3500 }

/-- Counterexample to C5 as stated: `accidentState` has exactly one
crashed vehicle (one active incident), yet a further `triggerAccident()`
call crashes a second vehicle — the call is not idempotent and two
crashed vehicles coexist afterwards. -/
theorem triggerAccident_not_idempotent :
    (accidentState.vehicles.filter (fun v => v.isCrashed)).length = 1 ∧
      ((triggerAccident accidentState).vehicles.filter
          (fun v => v.isCrashed)).length = 2 := by
  constructor
  · simp [accidentState, initialModel, baseVeh]
  · have helig : accidentEligible { baseVeh with id := 2, x := 3800, lane := 1 } := by
      refine ⟨rfl, ?_, ?_⟩ <;> norm_num [baseVeh]
    rw [triggerAccident, accidentState]
    simp only [initialModel, triggerGo, if_pos helig]
    simp [baseVeh]

/-! ### C8: spawn-timer reset -/

/-- C8: on a spawn attempt, `timeSinceLastSpawn` ends up `0` exactly when
a vehicle was actually spawned (the vehicle count grew by one); when the
attempt is triggered but the chosen emptiest lane lacks the 40 m
clearance, the attempt aborts with the timer keeping its accumulated
value `timeSinceLastSpawn + dt` (so a retry can occur on the next step). -/
theorem handleSpawning_reset_iff (s : TrafficModel) (dt : ℝ)
    (config : SimulationConfig) (r : Rng)
    (h0 : 0 ≤ s.timeSinceLastSpawn) (hdt : 0 < dt) :
    ((handleSpawning dt config s r).1.timeSinceLastSpawn = 0 ↔
        (handleSpawning dt config s r).1.vehicles.length =
          s.vehicles.length + 1) ∧
      ((r.val * 0.4 + 0.8) * (1 / (config.inflowRate / 3600)) <
          s.timeSinceLastSpawn + dt →
        ¬ clearanceOK (lastPos s.vehicles (bestLaneOf s.vehicles)) →
        (handleSpawning dt config s r).1.timeSinceLastSpawn =
          s.timeSinceLastSpawn + dt) := by
  have htpos : 0 < s.timeSinceLastSpawn + dt := by linarith
  rw [handleSpawning]
  by_cases htrig :
      (r.val * 0.4 + 0.8) * (1 / (config.inflowRate / 3600)) <
        s.timeSinceLastSpawn + dt
  · rw [if_pos htrig]
    by_cases hclear :
        clearanceOK (lastPos s.vehicles (bestLaneOf s.vehicles))
    · rw [if_pos hclear]
      refine ⟨?_, fun _ hn => absurd hclear hn⟩
      simp [spawnVehicle]
    · rw [if_neg hclear]
      refine ⟨?_, fun _ _ => rfl⟩
      constructor
      · intro h
        exact absurd h (ne_of_gt htpos)
      · intro h
        simp at h
  · rw [if_neg htrig]
    refine ⟨?_, fun ht _ => absurd ht htrig⟩
    constructor
    · intro h
      exact absurd h (ne_of_gt htpos)
    · intro h
      simp at h

/-- Witness for `handleSpawning_reset_iff` on the empty model. -/
theorem handleSpawning_reset_iff_witness :
    ((handleSpawning 1 baseConfig initialModel zeroRng).1.timeSinceLastSpawn = 0 ↔
        (handleSpawning 1 baseConfig initialModel zeroRng).1.vehicles.length =
          initialModel.vehicles.length + 1) ∧
      ((Rng.val zeroRng * 0.4 + 0.8) *
            (1 / (baseConfig.inflowRate / 3600)) <
          initialModel.timeSinceLastSpawn + 1 →
        ¬ clearanceOK (lastPos initialModel.vehicles
            (bestLaneOf initialModel.vehicles)) →
        (handleSpawning 1 baseConfig initialModel zeroRng).1.timeSinceLastSpawn =
          initialModel.timeSinceLastSpawn + 1) :=
  handleSpawning_reset_iff initialModel 1 baseConfig zeroRng
    (by norm_num [initialModel]) (by norm_num)


/-! ### C7: neighbor queries -/

/-- A vehicle that the neighbor scan may select: not the subject itself,
on the target lane, at strictly positive (signed) distance. -/
def nearValid (veh : Vehicle) (targetLane : ℤ) (score : Vehicle → ℝ)
    (u : Vehicle) : Prop :=
  u.id ≠ veh.id ∧ u.lane = targetLane ∧ 0 < score u

/-- Full characterization of the scanning loop, for any accumulator:
a `none` result means the accumulator was empty and no list element is
selectable; a `some w` result is either the untouched accumulator (then
no list element beats it) or a selectable list element that attains the
minimum score, strictly beats the initial accumulator, and is the first
minimizer in list order (every selectable element before it scores
strictly higher). -/
lemma nearScan_characterize (veh : Vehicle) (targetLane : ℤ)
    (score : Vehicle → ℝ) :
    ∀ (l : List Vehicle) (acc : Option Vehicle),
      (nearScan veh targetLane score l acc = none →
        (acc = none ∧ ∀ u ∈ l, ¬ nearValid veh targetLane score u)) ∧
      (∀ w, nearScan veh targetLane score l acc = some w →
        ((acc = some w ∧
            ∀ u ∈ l, nearValid veh targetLane score u → score w ≤ score u) ∨
          (nearValid veh targetLane score w ∧
            (∀ u ∈ l, nearValid veh targetLane score u → score w ≤ score u) ∧
            (∀ b, acc = some b → score w < score b) ∧
            ∃ l₁ l₂, l = l₁ ++ w :: l₂ ∧
              ∀ u ∈ l₁, nearValid veh targetLane score u →
                score w < score u))) := by
  intro l
  induction l with
  | nil =>
      intro acc
      constructor
      · intro h
        exact ⟨h, by simp⟩
      · intro w h
        left
        exact ⟨h, by simp⟩
  | cons o rest ih =>
      intro acc
      -- helper: extending the characterization over a non-selectable head
      have skip : ∀ (hinvalid : ¬ nearValid veh targetLane score o),
          (nearScan veh targetLane score rest acc = none →
            (acc = none ∧ ∀ u ∈ o :: rest, ¬ nearValid veh targetLane score u)) ∧
          (∀ w, nearScan veh targetLane score rest acc = some w →
            ((acc = some w ∧
                ∀ u ∈ o :: rest, nearValid veh targetLane score u → score w ≤ score u) ∨
              (nearValid veh targetLane score w ∧
                (∀ u ∈ o :: rest, nearValid veh targetLane score u → score w ≤ score u) ∧
                (∀ b, acc = some b → score w < score b) ∧
                ∃ l₁ l₂, o :: rest = l₁ ++ w :: l₂ ∧
                  ∀ u ∈ l₁, nearValid veh targetLane score u →
                    score w < score u))) := by
        intro hinvalid
        obtain ⟨ihn, ihs⟩ := ih acc
        constructor
        · intro h
          obtain ⟨ha, hall⟩ := ihn h
          refine ⟨ha, ?_⟩
          intro u hu
          rcases List.mem_cons.mp hu with rfl | hu
          · exact hinvalid
          · exact hall u hu
        · intro w h
          rcases ihs w h with ⟨ha, hmin⟩ | ⟨hval, hmin, hbeat, l₁, l₂, hsplit, hstrict⟩
          · left
            refine ⟨ha, ?_⟩
            intro u hu hv
            rcases List.mem_cons.mp hu with rfl | hu
            · exact absurd hv hinvalid
            · exact hmin u hu hv
          · right
            refine ⟨hval, ?_, hbeat, o :: l₁, l₂, by simp [hsplit], ?_⟩
            · intro u hu hv
              rcases List.mem_cons.mp hu with rfl | hu
              · exact absurd hv hinvalid
              · exact hmin u hu hv
            · intro u hu hv
              rcases List.mem_cons.mp hu with rfl | hu
              · exact absurd hv hinvalid
              · exact hstrict u hu hv
      by_cases hid : o.id = veh.id
      · have hinv : ¬ nearValid veh targetLane score o := fun hv => hv.1 hid
        have hred : nearScan veh targetLane score (o :: rest) acc =
            nearScan veh targetLane score rest acc := by
          simp only [nearScan, if_pos hid]
        rw [hred]
        exact skip hinv
      · by_cases hlane : o.lane ≠ targetLane
        · have hinv : ¬ nearValid veh targetLane score o := fun hv => hlane hv.2.1
          have hred : nearScan veh targetLane score (o :: rest) acc =
              nearScan veh targetLane score rest acc := by
            simp only [nearScan, if_neg hid, if_pos hlane]
          rw [hred]
          exact skip hinv
        · push_neg at hlane
          have hlane' : ¬ o.lane ≠ targetLane := not_ne_iff.mpr hlane
          cases acc with
          | none =>
              by_cases hpos : 0 < score o
              · have hvalo : nearValid veh targetLane score o := ⟨hid, hlane, hpos⟩
                have hred : nearScan veh targetLane score (o :: rest) none =
                    nearScan veh targetLane score rest (some o) := by
                  simp only [nearScan, if_neg hid, if_neg hlane', if_pos hpos]
                rw [hred]
                obtain ⟨ihn, ihs⟩ := ih (some o)
                constructor
                · intro h
                  exact absurd (ihn h).1 (by simp)
                · intro w h
                  rcases ihs w h with ⟨ha, hmin⟩ | ⟨hval, hmin, hbeat, l₁, l₂, hsplit, hstrict⟩
                  · right
                    have hw : w = o := by
                      injection ha.symm
                    subst hw
                    refine ⟨hvalo, ?_, by simp, [], rest, rfl, by simp⟩
                    intro u hu hv
                    rcases List.mem_cons.mp hu with rfl | hu
                    · exact le_refl _
                    · exact hmin u hu hv
                  · right
                    have hbo : score w < score o := hbeat o rfl
                    refine ⟨hval, ?_, by simp, o :: l₁, l₂, by simp [hsplit], ?_⟩
                    · intro u hu hv
                      rcases List.mem_cons.mp hu with rfl | hu
                      · exact le_of_lt hbo
                      · exact hmin u hu hv
                    · intro u hu hv
                      rcases List.mem_cons.mp hu with rfl | hu
                      · exact hbo
                      · exact hstrict u hu hv
              · have hinv : ¬ nearValid veh targetLane score o :=
                  fun hv => hpos hv.2.2
                have hred : nearScan veh targetLane score (o :: rest) none =
                    nearScan veh targetLane score rest none := by
                  simp only [nearScan, if_neg hid, if_neg hlane', if_neg hpos]
                rw [hred]
                exact skip hinv
          | some b =>
              by_cases hcond : 0 < score o ∧ score o < score b
              · have hvalo : nearValid veh targetLane score o :=
                  ⟨hid, hlane, hcond.1⟩
                have hred : nearScan veh targetLane score (o :: rest) (some b) =
                    nearScan veh targetLane score rest (some o) := by
                  simp only [nearScan, if_neg hid, if_neg hlane', if_pos hcond]
                rw [hred]
                obtain ⟨ihn, ihs⟩ := ih (some o)
                constructor
                · intro h
                  exact absurd (ihn h).1 (by simp)
                · intro w h
                  rcases ihs w h with ⟨ha, hmin⟩ | ⟨hval, hmin, hbeat, l₁, l₂, hsplit, hstrict⟩
                  · right
                    have hw : w = o := by injection ha.symm
                    subst hw
                    refine ⟨hvalo, ?_, ?_, [], rest, rfl, by simp⟩
                    · intro u hu hv
                      rcases List.mem_cons.mp hu with rfl | hu
                      · exact le_refl _
                      · exact hmin u hu hv
                    · intro b' hb'
                      injection hb' with hb'
                      rw [← hb']
                      exact hcond.2
                  · right
                    have hbo : score w < score o := hbeat o rfl
                    refine ⟨hval, ?_, ?_, o :: l₁, l₂, by simp [hsplit], ?_⟩
                    · intro u hu hv
                      rcases List.mem_cons.mp hu with rfl | hu
                      · exact le_of_lt hbo
                      · exact hmin u hu hv
                    · intro b' hb'
                      injection hb' with hb'
                      rw [← hb']
                      exact lt_trans hbo hcond.2
                    · intro u hu hv
                      rcases List.mem_cons.mp hu with rfl | hu
                      · exact hbo
                      · exact hstrict u hu hv
              · have hred : nearScan veh targetLane score (o :: rest) (some b) =
                    nearScan veh targetLane score rest (some b) := by
                  simp only [nearScan, if_neg hid, if_neg hlane', if_neg hcond]
                rw [hred]
                obtain ⟨ihn, ihs⟩ := ih (some b)
                have hob : nearValid veh targetLane score o → score b ≤ score o := by
                  intro hv
                  by_contra hlt
                  push_neg at hlt
                  exact hcond ⟨hv.2.2, hlt⟩
                constructor
                · intro h
                  exact absurd (ihn h).1 (by simp)
                · intro w h
                  rcases ihs w h with ⟨ha, hmin⟩ | ⟨hval, hmin, hbeat, l₁, l₂, hsplit, hstrict⟩
                  · left
                    have hw : w = b := by injection ha.symm
                    refine ⟨by rw [hw], ?_⟩
                    intro u hu hv
                    rcases List.mem_cons.mp hu with rfl | hu
                    · rw [hw]; exact hob hv
                    · exact hmin u hu hv
                  · right
                    have hwb : score w < score b := hbeat b rfl
                    refine ⟨hval, ?_, ?_, o :: l₁, l₂, by simp [hsplit], ?_⟩
                    · intro u hu hv
                      rcases List.mem_cons.mp hu with rfl | hu
                      · exact le_of_lt (lt_of_lt_of_le hwb (hob hv))
                      · exact hmin u hu hv
                    · intro b' hb'
                      injection hb' with hb'
                      rw [← hb']
                      exact hwb
                    · intro u hu hv
                      rcases List.mem_cons.mp hu with rfl | hu
                      · exact lt_of_lt_of_le hwb (hob hv)
                      · exact hstrict u hu hv


/-- C7 (amended): `getLeader` returns the vehicle with the smallest
strictly positive `other.x − veh.x` among the vehicles of the list on
`targetLane`, excluding the subject itself (`none` when there is none);
`getFollower` is symmetric on `veh.x − other.x`; ties in the distance are
broken in favour of the vehicle occurring first in the list (not by
smallest id); both work for any `targetLane`, equal to `veh.lane` or
not. -/
theorem neighbor_query_spec (vehicles : List Vehicle) (veh : Vehicle)
    (targetLane : ℤ) :
    ((getLeader vehicles veh targetLane = none →
        ∀ u ∈ vehicles,
          ¬ (u.id ≠ veh.id ∧ u.lane = targetLane ∧ 0 < u.x - veh.x)) ∧
      (∀ w, getLeader vehicles veh targetLane = some w →
        (w.id ≠ veh.id ∧ w.lane = targetLane ∧ 0 < w.x - veh.x) ∧
        (∀ u ∈ vehicles, u.id ≠ veh.id → u.lane = targetLane →
          0 < u.x - veh.x → w.x - veh.x ≤ u.x - veh.x) ∧
        ∃ l₁ l₂, vehicles = l₁ ++ w :: l₂ ∧
          ∀ u ∈ l₁, u.id ≠ veh.id → u.lane = targetLane →
            0 < u.x - veh.x → w.x - veh.x < u.x - veh.x)) ∧
    ((getFollower vehicles veh targetLane = none →
        ∀ u ∈ vehicles,
          ¬ (u.id ≠ veh.id ∧ u.lane = targetLane ∧ 0 < veh.x - u.x)) ∧
      (∀ w, getFollower vehicles veh targetLane = some w →
        (w.id ≠ veh.id ∧ w.lane = targetLane ∧ 0 < veh.x - w.x) ∧
        (∀ u ∈ vehicles, u.id ≠ veh.id → u.lane = targetLane →
          0 < veh.x - u.x → veh.x - w.x ≤ veh.x - u.x) ∧
        ∃ l₁ l₂, vehicles = l₁ ++ w :: l₂ ∧
          ∀ u ∈ l₁, u.id ≠ veh.id → u.lane = targetLane →
            0 < veh.x - u.x → veh.x - w.x < veh.x - u.x)) := by
  constructor
  · obtain ⟨hn, hs⟩ :=
      nearScan_characterize veh targetLane (fun o => o.x - veh.x) vehicles none
    constructor
    · intro h u hu hv
      exact (hn h).2 u hu hv
    · intro w h
      rcases hs w h with ⟨ha, _⟩ | ⟨hval, hmin, _, l₁, l₂, hsplit, hstrict⟩
      · exact absurd ha (by simp)
      · refine ⟨hval, ?_, l₁, l₂, hsplit, ?_⟩
        · intro u hu h1 h2 h3
          exact hmin u hu ⟨h1, h2, h3⟩
        · intro u hu h1 h2 h3
          exact hstrict u hu ⟨h1, h2, h3⟩
  · obtain ⟨hn, hs⟩ :=
      nearScan_characterize veh targetLane (fun o => veh.x - o.x) vehicles none
    constructor
    · intro h u hu hv
      exact (hn h).2 u hu hv
    · intro w h
      rcases hs w h with ⟨ha, _⟩ | ⟨hval, hmin, _, l₁, l₂, hsplit, hstrict⟩
      · exact absurd ha (by simp)
      · refine ⟨hval, ?_, l₁, l₂, hsplit, ?_⟩
        · intro u hu h1 h2 h3
          exact hmin u hu ⟨h1, h2, h3⟩
        · intro u hu h1 h2 h3
          exact hstrict u hu ⟨h1, h2, h3⟩

/-- Vehicle at `x = 10`, id 5, first in list order. -/
def tieVehFirst : Vehicle := { baseVeh with id := 5, x := 10 }

/-- Vehicle at the same `x = 10` but with the smaller id 3, second in
list order. -/
def tieVehSecond : Vehicle := { baseVeh with id := 3, x := 10 }

/-- Counterexample to C7 as stated: on the list
`[tieVehFirst, tieVehSecond, baseVeh]` both candidates are at distance
`10` ahead of the subject on lane 0, but `getLeader` returns the one
with id 5 (first in list order), not the one with the smallest id 3. -/
theorem getLeader_tie_not_smallest_id :
    getLeader [tieVehFirst, tieVehSecond, baseVeh] baseVeh 0 =
        some tieVehFirst ∧
      tieVehFirst.id = 5 ∧
      tieVehSecond ∈ [tieVehFirst, tieVehSecond, baseVeh] ∧
      tieVehSecond.id = 3 ∧
      tieVehSecond.lane = 0 ∧
      tieVehSecond.x - baseVeh.x = tieVehFirst.x - baseVeh.x ∧
      0 < tieVehSecond.x - baseVeh.x := by
  refine ⟨?_, rfl, by simp, rfl, rfl, by norm_num [tieVehFirst, tieVehSecond, baseVeh], by norm_num [tieVehSecond, baseVeh]⟩
  rw [getLeader]
  rw [show nearScan baseVeh 0 (fun o => o.x - baseVeh.x)
      [tieVehFirst, tieVehSecond, baseVeh] none =
      nearScan baseVeh 0 (fun o => o.x - baseVeh.x)
        [tieVehSecond, baseVeh] (some tieVehFirst) from by
    simp only [nearScan]
    rw [if_neg (by norm_num [tieVehFirst, baseVeh]),
      if_neg (by simp [tieVehFirst, baseVeh]),
      if_pos (by norm_num [tieVehFirst, baseVeh])]]
  rw [show nearScan baseVeh 0 (fun o => o.x - baseVeh.x)
      [tieVehSecond, baseVeh] (some tieVehFirst) =
      nearScan baseVeh 0 (fun o => o.x - baseVeh.x)
        [baseVeh] (some tieVehFirst) from by
    simp only [nearScan]
    rw [if_neg (by norm_num [tieVehSecond, baseVeh]),
      if_neg (by simp [tieVehSecond, baseVeh]),
      if_neg (by norm_num [tieVehSecond, tieVehFirst, baseVeh])]]
  rw [show nearScan baseVeh 0 (fun o => o.x - baseVeh.x)
      [baseVeh] (some tieVehFirst) = some tieVehFirst from by
    simp [nearScan]]


/-! ### C1: MOBIL lane-change decision -/

namespace TrafficModel

/-- The claim's safety criterion for a candidate lane: no new follower,
or the new follower's IDM acceleration — with the subject as its leader
and gap `subject.x − newFollower.x − subject.length` — at least
`−3.0 m/s²`. -/
def lcSafe (vehicles : List Vehicle) (config : SimulationConfig)
    (veh : Vehicle) (targetLane : ℤ) : Prop :=
  ∀ f, getFollower vehicles veh targetLane = some f →
    -3.0 ≤ calculateAcceleration f.v (some veh.v)
      (some (veh.x - f.x - veh.length)) f.targetSpeed config

/-- The claim's incentive quantity
`(a_c_new − a_c) + politeness·Δ_o + bias`, with one bias term:
`+0.2` toward a higher-index lane, `−0.2` toward a lower-index lane. -/
noncomputable def lcIncentive (vehicles : List Vehicle)
    (config : SimulationConfig) (veh : Vehicle) (accCurrent : ℝ)
    (targetLane : ℤ) : ℝ :=
  let newLeader := getLeader vehicles veh targetLane
  let aCNew := calculateAcceleration veh.v (newLeader.map (fun l => l.v))
    (newLeader.map (fun l => l.x - veh.x - l.length)) veh.targetSpeed config
  let deltaO : ℝ :=
    match getFollower vehicles veh veh.lane with
    | none => 0
    | some f =>
        calculateAcceleration f.v
            ((getLeader vehicles veh veh.lane).map (fun l => l.v))
            ((getLeader vehicles veh veh.lane).map
              (fun l => l.x - f.x - l.length)) f.targetSpeed config -
          calculateAcceleration f.v (some veh.v)
            (some (veh.x - f.x - veh.length)) f.targetSpeed config
  let bias : ℝ :=
    if veh.lane < targetLane then 0.2
    else if targetLane < veh.lane then -0.2 else 0
  (aCNew - accCurrent) + config.politeness * deltaO + bias

/-- The commit effects of a lane change (amended claim):
`lane := newLane`, `laneChangeTimer := 3.0`,
`laneChangeDirection := +1` if `newLane > y`, else `−1`. -/
noncomputable def lcCommit (veh : Vehicle) (targetLane : ℤ) : Vehicle :=
  { veh with
    lane := targetLane
    laneChangeTimer := 3.0
    laneChangeDirection := if veh.y < (targetLane : ℝ) then 1 else -1 }

/-- Candidate lanes as the claim words them: `lane−1` then `lane+1`,
each kept when inside `[0, 2]`. -/
def claimCandidates (lane : ℤ) : List ℤ :=
  (if 0 ≤ lane - 1 ∧ lane - 1 ≤ 2 then [lane - 1] else []) ++
    (if 0 ≤ lane + 1 ∧ lane + 1 ≤ 2 then [lane + 1] else [])

/-- First-match semantics of the claim: commit to the first candidate
lane that passes both the safety and the incentive criterion, consider
no further candidates; when none passes, the vehicle is unchanged. -/
noncomputable def mobilFirst (vehicles : List Vehicle)
    (config : SimulationConfig) (veh : Vehicle) (accCurrent : ℝ) :
    List ℤ → Vehicle
  | [] => veh
  | t :: ts =>
      if lcSafe vehicles config veh t ∧
          0.1 < lcIncentive vehicles config veh accCurrent t then
        lcCommit veh t
      else mobilFirst vehicles config veh accCurrent ts

/-- The source's `totalIncentive` (bias applied as two additions) equals
the claim's incentive (single bias term). -/
lemma mobilIncentive_eq_lcIncentive (vehicles : List Vehicle)
    (config : SimulationConfig) (veh : Vehicle) (accCurrent : ℝ)
    (targetLane : ℤ) :
    mobilIncentive vehicles config veh accCurrent targetLane =
      lcIncentive vehicles config veh accCurrent targetLane := by
  simp only [mobilIncentive, lcIncentive, MOBIL_BIAS]
  by_cases h1 : veh.lane < targetLane
  · have h2 : ¬ targetLane < veh.lane := by omega
    simp [h1, h2]
  · by_cases h2 : targetLane < veh.lane
    · simp [h1, h2]
    · simp [h1, h2]

/-- The candidate list the source builds equals the claim's candidate
list for lanes inside `[0, 2]`. -/
lemma candidates_eq (lane : ℤ) (h0 : 0 ≤ lane) (h2 : lane ≤ 2) :
    ((if 0 < lane then [lane - 1] else []) ++
        (if lane < lanesCount - 1 then [lane + 1] else [])) =
      claimCandidates lane := by
  interval_cases lane <;> simp [claimCandidates, lanesCount]

/-- The candidate loop of the source implements the claim's first-match
semantics. -/
lemma tryLanes_eq_mobilFirst (vehicles : List Vehicle)
    (config : SimulationConfig) (veh : Vehicle) (accCurrent : ℝ) :
    ∀ cs, tryLanes vehicles config veh accCurrent cs =
      mobilFirst vehicles config veh accCurrent cs := by
  intro cs
  induction cs with
  | nil => rfl
  | cons t ts ih =>
      have hm : mobilFirst vehicles config veh accCurrent (t :: ts) =
          if lcSafe vehicles config veh t ∧
              0.1 < lcIncentive vehicles config veh accCurrent t then
            lcCommit veh t
          else mobilFirst vehicles config veh accCurrent ts := rfl
      cases hfol : getFollower vehicles veh t with
      | none =>
          have hsafe : lcSafe vehicles config veh t := by
            intro f hf
            rw [hfol] at hf
            cases hf
          simp only [tryLanes, hfol]
          rw [hm, ih, mobilIncentive_eq_lcIncentive]
          simp only [lcCommit]
          refine if_congr ?_ rfl rfl
          constructor
          · intro h
            exact ⟨hsafe, h⟩
          · intro h
            exact h.2
      | some f =>
          simp only [tryLanes, hfol]
          by_cases hacc : calculateAcceleration f.v (some veh.v)
              (some (veh.x - f.x - veh.length)) f.targetSpeed config < -3.0
          · rw [if_pos hacc, ih, hm]
            have hnsafe : ¬ (lcSafe vehicles config veh t ∧
                0.1 < lcIncentive vehicles config veh accCurrent t) :=
              fun hc => absurd (hc.1 f hfol) (not_le.mpr hacc)
            rw [if_neg hnsafe]
          · rw [if_neg hacc]
            have hsafe : lcSafe vehicles config veh t := by
              intro f' hf'
              rw [hfol] at hf'
              injection hf' with hf'
              subst hf'
              exact not_lt.mp hacc
            rw [hm, ih, mobilIncentive_eq_lcIncentive]
            simp only [lcCommit]
            refine if_congr ?_ rfl rfl
            constructor
            · intro h
              exact ⟨hsafe, h⟩
            · intro h
              exact h.2

end TrafficModel

/-- C1 (amended): for a vehicle with `lane ∈ [0, 2]`, `checkLaneChange`
examines the candidate lanes `lane−1` then `lane+1` (each kept when
inside `[0, 2]`), in that order, and commits to the first candidate
passing the safety criterion (no new follower, or its IDM acceleration
with the subject as leader and gap
`subject.x − newFollower.x − subject.length` at least `−3.0`) and the
incentive criterion `(a_c_new − a_c) + politeness·Δ_o + bias > 0.1`
(bias `+0.2` toward a higher-index lane, `−0.2` toward a lower-index
lane), setting `lane` to that candidate, `laneChangeTimer := 3.0` and
`laneChangeDirection := +1` if `newLane > y`, else `−1` (the source uses
this two-valued convention, not `sign(newLane − y)`), and considers no
further candidates. -/
theorem checkLaneChange_spec (vehicles : List Vehicle)
    (config : SimulationConfig) (veh : Vehicle) (accCurrent : ℝ)
    (h0 : 0 ≤ veh.lane) (h2 : veh.lane ≤ 2) :
    checkLaneChange vehicles config veh accCurrent =
      mobilFirst vehicles config veh accCurrent
        (claimCandidates veh.lane) := by
  rw [checkLaneChange, candidates_eq veh.lane h0 h2,
    tryLanes_eq_mobilFirst]

/-- A vehicle in lane 1 whose visual coordinate `y` still equals 2. -/
def transitVeh : Vehicle := { baseVeh with lane := 1, y := 2 }

/-- Witness for `checkLaneChange_spec`. -/
theorem checkLaneChange_spec_witness :
    checkLaneChange [transitVeh] baseConfig transitVeh 0 =
      mobilFirst [transitVeh] baseConfig transitVeh 0
        (claimCandidates transitVeh.lane) :=
  checkLaneChange_spec [transitVeh] baseConfig transitVeh 0
    (by norm_num [transitVeh, baseVeh]) (by norm_num [transitVeh, baseVeh])


/-- Counterexample to C1 as stated: for the vehicle `transitVeh`
(`lane = 1`, `y = 2`) alone on the road, `checkLaneChange` commits to
lane 2 and sets `laneChangeDirection = −1`, although
`sign(newLane − y) = sign(2 − 2) = 0`: the source computes
`(targetLane > y) ? 1 : −1`, not `sign(newLane − y)`. -/
theorem laneChangeDirection_counterexample :
    (checkLaneChange [transitVeh] baseConfig transitVeh 0).lane = 2 ∧
      (checkLaneChange [transitVeh] baseConfig transitVeh 0).laneChangeTimer
        = 3.0 ∧
      (checkLaneChange [transitVeh] baseConfig transitVeh 0).laneChangeDirection
        = -1 ∧
      (2 : ℝ) - transitVeh.y = 0 := by
  have hfol0 : getFollower [transitVeh] transitVeh 0 = none := by
    simp [getFollower, nearScan]
  have hfol1 : getFollower [transitVeh] transitVeh transitVeh.lane = none := by
    simp [getFollower, nearScan]
  have hfol2 : getFollower [transitVeh] transitVeh 2 = none := by
    simp [getFollower, nearScan]
  have hlead0 : getLeader [transitVeh] transitVeh 0 = none := by
    simp [getLeader, nearScan]
  have hlead2 : getLeader [transitVeh] transitVeh 2 = none := by
    simp [getLeader, nearScan]
  have haccNew : calculateAcceleration 30 none none 30 baseConfig = 0 := by
    norm_num [calculateAcceleration, IDM_DELTA, baseConfig]
  have hinc0 : mobilIncentive [transitVeh] baseConfig transitVeh 0 0 = -0.2 := by
    rw [mobilIncentive]
    rw [hlead0, hfol1]
    simp only [Option.map_none']
    rw [show transitVeh.v = 30 from rfl, show transitVeh.targetSpeed = 30 from rfl,
      haccNew]
    norm_num [MOBIL_BIAS, transitVeh, baseVeh]
  have hinc2 : mobilIncentive [transitVeh] baseConfig transitVeh 0 2 = 0.2 := by
    rw [mobilIncentive]
    rw [hlead2, hfol1]
    simp only [Option.map_none']
    rw [show transitVeh.v = 30 from rfl, show transitVeh.targetSpeed = 30 from rfl,
      haccNew]
    norm_num [MOBIL_BIAS, transitVeh, baseVeh]
  have hres : checkLaneChange [transitVeh] baseConfig transitVeh 0 =
      { transitVeh with
        lane := 2
        laneChangeTimer := 3.0
        laneChangeDirection := -1 } := by
    rw [checkLaneChange]
    have hcand : ((if 0 < transitVeh.lane then [transitVeh.lane - 1] else []) ++
        (if transitVeh.lane < lanesCount - 1 then [transitVeh.lane + 1] else []))
        = [0, 2] := by
      norm_num [transitVeh, baseVeh, lanesCount]
    rw [hcand]
    simp only [tryLanes, hfol0, hfol2]
    rw [if_neg (by rw [hinc0]; norm_num [MOBIL_THRESHOLD])]
    rw [if_pos (by rw [hinc2]; norm_num [MOBIL_THRESHOLD])]
    have hy : ¬ transitVeh.y < ((2 : ℤ) : ℝ) := by
      norm_num [transitVeh, baseVeh]
    rw [if_neg hy]
  rw [hres]
  refine ⟨rfl, rfl, rfl, ?_⟩
  norm_num [transitVeh, baseVeh]


/-! ### C3: lane-change cooldown -/

namespace TrafficModel

/-- Membership in an insertion step of the sort. -/
lemma mem_insertDesc {veh w : Vehicle} :
    ∀ {l : List Vehicle}, w ∈ insertDesc veh l ↔ w = veh ∨ w ∈ l := by
  intro l
  induction l with
  | nil => simp [insertDesc]
  | cons u us ih =>
      rw [insertDesc]
      by_cases h : veh.x < u.x
      · rw [if_pos h]
        simp only [List.mem_cons, ih]
        tauto
      · rw [if_neg h]
        simp only [List.mem_cons]

/-- The sort phase only reorders: membership is preserved. -/
lemma mem_sortByXDesc {w : Vehicle} :
    ∀ {l : List Vehicle}, w ∈ sortByXDesc l ↔ w ∈ l := by
  intro l
  induction l with
  | nil => simp [sortByXDesc]
  | cons u us ih =>
      rw [sortByXDesc, mem_insertDesc]
      simp only [List.mem_cons, ih]

/-- The integrator does not touch the lane-change cooldown. -/
lemma integrateVeh_timer (dt : ℝ) (w : Vehicle) :
    (integrateVeh dt w).laneChangeTimer = w.laneChangeTimer := by
  rw [integrateVeh]
  split_ifs <;> rfl

/-- The integrator does not change the lane either. -/
lemma integrateVeh_lane (dt : ℝ) (w : Vehicle) :
    (integrateVeh dt w).lane = w.lane := by
  rw [integrateVeh]
  split_ifs <;> rfl

/-- Every vehicle surviving the integration loop is the Euler update of
a vehicle of the input list. -/
lemma mem_integrateLoop {rl dt : ℝ} :
    ∀ {l : List Vehicle} {v' : Vehicle}, v' ∈ integrateLoop rl dt l →
      ∃ w ∈ l, v' = integrateVeh dt w := by
  intro l
  induction l with
  | nil =>
      intro v' hv
      simp [integrateLoop] at hv
  | cons u us ih =>
      intro v' hv
      simp only [integrateLoop] at hv
      by_cases hx : rl < (integrateVeh dt u).x
      · rw [if_pos hx] at hv
        obtain ⟨w, hw, he⟩ := ih hv
        exact ⟨w, List.mem_cons_of_mem u hw, he⟩
      · rw [if_neg hx] at hv
        rcases List.mem_cons.mp hv with rfl | hv'
        · exact ⟨u, List.mem_cons_self u us, rfl⟩
        · obtain ⟨w, hw, he⟩ := ih hv'
          exact ⟨w, List.mem_cons_of_mem u hw, he⟩

/-- A candidate-loop result either carries a fresh 3.0 s cooldown (a
commit happened) or is the unchanged input vehicle. -/
lemma tryLanes_timer (vehicles : List Vehicle) (config : SimulationConfig)
    (veh : Vehicle) (accCurrent : ℝ) :
    ∀ cs, (tryLanes vehicles config veh accCurrent cs).laneChangeTimer = 3.0 ∨
      tryLanes vehicles config veh accCurrent cs = veh := by
  intro cs
  induction cs with
  | nil => right; rfl
  | cons t ts ih =>
      rcases hfol : getFollower vehicles veh t with _ | f
      · simp only [tryLanes, hfol]
        split_ifs
        · left; rfl
        · left; rfl
        · exact ih
      · simp only [tryLanes, hfol]
        split_ifs
        · exact ih
        · left; rfl
        · left; rfl
        · exact ih

/-- Same statement for `checkLaneChange`. -/
lemma checkLaneChange_timer (vehicles : List Vehicle)
    (config : SimulationConfig) (veh : Vehicle) (accCurrent : ℝ) :
    (checkLaneChange vehicles config veh accCurrent).laneChangeTimer = 3.0 ∨
      checkLaneChange vehicles config veh accCurrent = veh := by
  rw [checkLaneChange]
  exact tryLanes_timer vehicles config veh accCurrent _

/-- Through the decide loop, `laneChangeTimer > −dt` is invariant
(for positive `dt`): a positive timer is decremented by `dt`, a
non-positive one is either replaced by 3.0 on a commit or kept. -/
lemma decideGo_timer (config : SimulationConfig) (dt : ℝ) (hdt : 0 < dt) :
    ∀ (fuel i : ℕ) (L : List Vehicle) (r : Rng),
      (∀ v ∈ L, -dt < v.laneChangeTimer) →
      ∀ v ∈ (decideGo config dt fuel i L r).1, -dt < v.laneChangeTimer := by
  intro fuel
  induction fuel with
  | zero =>
      intro i L r h v hv
      exact h v hv
  | succ n ih =>
      intro i L r h v hv
      simp only [decideGo] at hv
      by_cases hlen : i < L.length
      · rw [dif_pos hlen] at hv
        by_cases hcr : (L.get ⟨i, hlen⟩).isCrashed
        · rw [if_pos hcr] at hv
          refine ih _ _ _ ?_ v hv
          intro u hu
          rcases List.mem_or_eq_of_mem_set hu with hu' | rfl
          · exact h u hu'
          · exact h (L.get ⟨i, hlen⟩) (List.get_mem L i hlen)
        · rw [if_neg hcr] at hv
          by_cases ht : (L.get ⟨i, hlen⟩).laneChangeTimer ≤ 0
          · rw [if_pos ht] at hv
            refine ih _ _ _ ?_ v hv
            intro u hu
            rcases List.mem_or_eq_of_mem_set hu with hu' | rfl
            · rcases List.mem_or_eq_of_mem_set hu' with hu'' | rfl
              · exact h u hu''
              · exact h (L.get ⟨i, hlen⟩) (List.get_mem L i hlen)
            · rcases checkLaneChange_timer _ config _ _ with h3 | hkeep
              · rw [h3]
                linarith
              · rw [hkeep]
                exact h (L.get ⟨i, hlen⟩) (List.get_mem L i hlen)
          · rw [if_neg ht] at hv
            refine ih _ _ _ ?_ v hv
            intro u hu
            rcases List.mem_or_eq_of_mem_set hu with hu' | rfl
            · rcases List.mem_or_eq_of_mem_set hu' with hu'' | rfl
              · exact h u hu''
              · exact h (L.get ⟨i, hlen⟩) (List.get_mem L i hlen)
            · have hgt := lt_of_not_le ht
              show -dt < (L.get ⟨i, hlen⟩).laneChangeTimer - dt
              linarith
      · rw [dif_neg hlen] at hv
        exact h v hv

/-- The two outer lanes chosen by `bestLaneOf` are within `[0, 2]`. -/
lemma bestLaneOf_bounds (l : List Vehicle) :
    0 ≤ bestLaneOf l ∧ bestLaneOf l ≤ 2 := by
  rw [bestLaneOf]
  split_ifs <;> norm_num

/-- The spawner either leaves the vehicle list unchanged or appends one
fresh vehicle with zero cooldown, zero position, zero acceleration, a
lane inside `[0, 2]`, and (for draws inside `[0, 1]`) a nonnegative
speed. -/
lemma handleSpawning_vehicles (dt : ℝ) (config : SimulationConfig)
    (s : TrafficModel) (r : Rng) :
    (handleSpawning dt config s r).1.vehicles = s.vehicles ∨
    ∃ nv, (handleSpawning dt config s r).1.vehicles = s.vehicles ++ [nv] ∧
      nv.laneChangeTimer = 0 ∧ nv.x = 0 ∧ nv.a = 0 ∧
      0 ≤ nv.lane ∧ nv.lane ≤ 2 ∧
      ((∀ j, 0 ≤ r.stream j ∧ r.stream j ≤ 1) → 0 ≤ nv.v) := by
  simp only [handleSpawning]
  split_ifs with h1 h2
  · right
    refine ⟨_, rfl, ?_, ?_, ?_, ?_, ?_, ?_⟩
    · rfl
    · rfl
    · rfl
    · exact (bestLaneOf_bounds _).1
    · exact (bestLaneOf_bounds _).2
    · intro hstream
      obtain ⟨hl, hu⟩ := hstream (r.idx + 1 + 1)
      simp only [spawnVehicle, Rng.val, Rng.advance]
      split_ifs
      · have hx : (0 : ℝ) ≤ 85 + (r.stream (r.idx + 1 + 1) - 0.5) * 10 := by
          linarith
        exact mul_nonneg (div_nonneg hx (by norm_num)) (by norm_num)
      · have hx : (0 : ℝ) ≤ 110 + (r.stream (r.idx + 1 + 1) - 0.5) * 20 := by
          linarith
        exact mul_nonneg (div_nonneg hx (by norm_num)) (by norm_num)
  · left; rfl
  · left; rfl

/-- The vehicle list after a `step` is the one produced by the spawner
applied to the integrated, decided, sorted list. -/
lemma step_vehicles (config : SimulationConfig) (s : TrafficModel) (r : Rng) :
    (step config s r).1.vehicles =
      (handleSpawning (DT * config.timeScale) config
        { s with vehicles := (integrateLoop s.roadLength (DT * config.timeScale)
            (decideGo config (DT * config.timeScale)
              (sortByXDesc s.vehicles).length 0 (sortByXDesc s.vehicles) r).1) }
        (decideGo config (DT * config.timeScale)
          (sortByXDesc s.vehicles).length 0 (sortByXDesc s.vehicles) r).2).1.vehicles := by
  simp only [step]
  split_ifs <;> rfl

end TrafficModel

/-- C3 (amended): with positive `timeScale` and all cooldowns
nonnegative before the step, after `step` every vehicle satisfies
`laneChangeTimer > −dt` with `dt = timeScale/60` — but not
`laneChangeTimer ≥ 0` as the specification claims: a timer in `(0, dt)`
is decremented once below zero (see the counterexample). -/
theorem laneChangeTimer_bound (config : SimulationConfig)
    (s : TrafficModel) (r : Rng) (hts : 0 < config.timeScale)
    (hpre : ∀ v ∈ s.vehicles, 0 ≤ v.laneChangeTimer) :
    ∀ v ∈ (step config s r).1.vehicles,
      -(DT * config.timeScale) < v.laneChangeTimer := by
  have hdt : 0 < DT * config.timeScale := by
    have h60 : (0 : ℝ) < DT := by norm_num [DT]
    exact mul_pos h60 hts
  intro v hv
  rw [step_vehicles] at hv
  have hdec : ∀ u ∈ (decideGo config (DT * config.timeScale)
      (sortByXDesc s.vehicles).length 0 (sortByXDesc s.vehicles) r).1,
      -(DT * config.timeScale) < u.laneChangeTimer := by
    refine decideGo_timer config _ hdt _ 0 _ r ?_
    intro u hu
    have := hpre u (mem_sortByXDesc.mp hu)
    linarith
  rcases handleSpawning_vehicles (DT * config.timeScale) config _ _ with
    hsp | ⟨nv, hsp, hnvt, _⟩
  · rw [hsp] at hv
    obtain ⟨w, hw, rfl⟩ := mem_integrateLoop hv
    rw [integrateVeh_timer]
    exact hdec w hw
  · rw [hsp] at hv
    rcases List.mem_append.mp hv with hv' | hv'
    · obtain ⟨w, hw, rfl⟩ := mem_integrateLoop hv'
      rw [integrateVeh_timer]
      exact hdec w hw
    · have : v = nv := by simpa using hv'
      rw [this, hnvt]
      linarith

/-- Witness for `laneChangeTimer_bound` on the empty model. -/
theorem laneChangeTimer_bound_witness :
    (0 : ℝ) < baseConfig.timeScale ∧
      ∀ v ∈ (step baseConfig initialModel zeroRng).1.vehicles,
        -(DT * baseConfig.timeScale) < v.laneChangeTimer :=
  ⟨by norm_num [baseConfig],
    laneChangeTimer_bound baseConfig initialModel zeroRng
      (by norm_num [baseConfig]) (by intro v hv; simp [initialModel] at hv)⟩


namespace TrafficModel

/-- One unfolding step of the decide loop, for rewriting at concrete
inputs. -/
lemma decideGo_succ (config : SimulationConfig) (dt : ℝ) (fuel i : ℕ)
    (vehicles : List Vehicle) (r : Rng) :
    decideGo config dt (fuel + 1) i vehicles r =
      if h : i < vehicles.length then
        let veh := vehicles.get ⟨i, h⟩
        if veh.isCrashed then
          decideGo config dt fuel (i + 1)
            (vehicles.set i { veh with a := 0, v := 0 }) r
        else
          let leader := getLeader vehicles veh veh.lane
          let gap := leader.map (fun l => l.x - veh.x - l.length)
          let vLeader := leader.map (fun l => l.v)
          let accIdm := calculateAcceleration veh.v vLeader gap
            veh.targetSpeed config
          let noisy : ℝ × Rng :=
            if 0 < config.accelerationNoise ∧ 1 < veh.v then
              (accIdm + (r.val - 0.5) * config.accelerationNoise, r.advance)
            else (accIdm, r)
          let accCurrent := noisy.1
          let r' := noisy.2
          let veh1 := { veh with a := accCurrent }
          let vehicles1 := vehicles.set i veh1
          if veh1.laneChangeTimer ≤ 0 then
            decideGo config dt fuel (i + 1)
              (vehicles1.set i (checkLaneChange vehicles1 config veh1 accCurrent)) r'
          else
            decideGo config dt fuel (i + 1)
              (vehicles1.set i
                { veh1 with laneChangeTimer := veh1.laneChangeTimer - dt }) r'
      else (vehicles, r) := rfl

end TrafficModel

/-- A single non-crashed vehicle at its desired speed with a small
positive lane-change cooldown `0.01 s < dt`. -/
noncomputable def timerVeh : Vehicle := { baseVeh with x := 100, laneChangeTimer := 1 / 100 }

/-- A model holding only `timerVeh`. -/
noncomputable def timerState : TrafficModel :=
  { initialModel with vehicles := [timerVeh], nextId := 2 }


/-- Counterexample to C3 as stated: starting from `timerState`
(one non-crashed vehicle with `laneChangeTimer = 0.01`) one `step` with
`timeScale = 1` leaves the vehicle with
`laneChangeTimer = 0.01 − 1/60 < 0`: the cooldown does become negative. -/
theorem laneChangeTimer_negative_counterexample :
    ((step baseConfig timerState zeroRng).1.vehicles.map
        (fun v => v.laneChangeTimer)) = [1 / 100 - 1 / 60] ∧
      (1 / 100 - 1 / 60 : ℝ) < 0 := by
  refine ⟨?_, by norm_num⟩
  have hacc0 : calculateAcceleration timerVeh.v none none
      timerVeh.targetSpeed baseConfig = 0 := by
    norm_num [calculateAcceleration, IDM_DELTA, timerVeh, baseVeh, baseConfig]
  have hlead : getLeader [timerVeh] timerVeh timerVeh.lane = none := by
    simp [getLeader, nearScan]
  have hdec : decideGo baseConfig (DT * baseConfig.timeScale) (0 + 1) 0
      [timerVeh] zeroRng =
      ([{ timerVeh with
          a := 0
          laneChangeTimer :=
            timerVeh.laneChangeTimer - DT * baseConfig.timeScale }], zeroRng) := by
    rw [decideGo_succ]
    rw [dif_pos (show (0 : ℕ) < [timerVeh].length by norm_num)]
    simp only [List.get]
    rw [if_neg (show ¬ timerVeh.isCrashed = true by
      simp [timerVeh, baseVeh])]
    rw [hlead]
    simp only [Option.map_none']
    rw [hacc0]
    rw [if_neg (show ¬ (0 < baseConfig.accelerationNoise ∧ 1 < timerVeh.v) by
      norm_num [baseConfig])]
    rw [if_neg (show ¬ (timerVeh.laneChangeTimer ≤ 0) by
      norm_num [timerVeh, baseVeh])]
    simp [decideGo, List.set]
  have hint : integrateLoop timerState.roadLength (DT * baseConfig.timeScale)
      [{ timerVeh with
          a := 0
          laneChangeTimer :=
            timerVeh.laneChangeTimer - DT * baseConfig.timeScale }] =
      [integrateVeh (DT * baseConfig.timeScale)
        { timerVeh with
          a := 0
          laneChangeTimer :=
            timerVeh.laneChangeTimer - DT * baseConfig.timeScale }] := by
    simp only [integrateLoop]
    rw [if_neg (show ¬ timerState.roadLength <
        (integrateVeh (DT * baseConfig.timeScale)
          { timerVeh with
            a := 0
            laneChangeTimer :=
              timerVeh.laneChangeTimer - DT * baseConfig.timeScale }).x by
      norm_num [integrateVeh, timerVeh, baseVeh, timerState, initialModel,
        DT, baseConfig])]
  rw [step_vehicles]
  rw [show sortByXDesc timerState.vehicles = [timerVeh] from rfl]
  rw [show ([timerVeh] : List Vehicle).length = 0 + 1 from rfl]
  rw [hdec, hint]
  have hsp : ∀ (s1 : TrafficModel), s1.timeSinceLastSpawn = 0 →
      (handleSpawning (DT * baseConfig.timeScale) baseConfig s1 zeroRng).1.vehicles
        = s1.vehicles := by
    intro s1 hs1
    simp only [handleSpawning]
    rw [if_neg (show ¬ (Rng.val zeroRng * 0.4 + 0.8) *
        (1 / (baseConfig.inflowRate / 3600)) <
        s1.timeSinceLastSpawn + DT * baseConfig.timeScale by
      rw [hs1]
      norm_num [Rng.val, zeroRng, DT, baseConfig])]
  rw [hsp _ rfl]
  simp only [List.map_cons, List.map_nil, integrateVeh_timer]
  norm_num [timerVeh, baseVeh, DT, baseConfig]


/-! ### C6: step invariants and the despawn rule -/

namespace TrafficModel

/-- The clamp `if v < 0 then 0` makes the integrated speed nonnegative,
with no assumption on the input. -/
lemma integrateVeh_v_nonneg (dt : ℝ) (w : Vehicle) :
    0 ≤ (integrateVeh dt w).v := by
  rw [integrateVeh]
  split_ifs with h1 h2 h3 <;>
    first
      | exact le_refl 0
      | exact le_of_not_lt (by assumption)

/-- Positions do not move backwards: for `dt ≥ 0` and a nonnegative
input position the integrated position stays nonnegative. -/
lemma integrateVeh_x_nonneg (dt : ℝ) (w : Vehicle) (hdt : 0 ≤ dt)
    (hx : 0 ≤ w.x) : 0 ≤ (integrateVeh dt w).x := by
  rw [integrateVeh]
  split_ifs with h1 h2 h3 <;>
    first
      | simpa using hx
      | · show 0 ≤ w.x + (w.v + w.a * dt) * dt
          have := le_of_not_lt (by assumption : ¬ w.v + w.a * dt < 0)
          nlinarith

/-- Every vehicle kept by the integration loop has position at most
`roadLength`. -/
lemma integrateLoop_x_le {rl dt : ℝ} :
    ∀ {l : List Vehicle} {v' : Vehicle}, v' ∈ integrateLoop rl dt l →
      v'.x ≤ rl := by
  intro l
  induction l with
  | nil =>
      intro v' hv
      simp [integrateLoop] at hv
  | cons u us ih =>
      intro v' hv
      simp only [integrateLoop] at hv
      by_cases hx : rl < (integrateVeh dt u).x
      · rw [if_pos hx] at hv
        exact ih hv
      · rw [if_neg hx] at hv
        rcases List.mem_cons.mp hv with rfl | hv'
        · exact le_of_not_lt hx
        · exact ih hv'

/-- The despawn rule both ways: the Euler update of a vehicle of the
input list is kept by the integration loop exactly when its updated
position does not exceed `roadLength`. -/
lemma integrateLoop_mem_iff {rl dt : ℝ} :
    ∀ {l : List Vehicle} {w : Vehicle}, w ∈ l →
      (integrateVeh dt w ∈ integrateLoop rl dt l ↔
        (integrateVeh dt w).x ≤ rl) := by
  intro l
  induction l with
  | nil =>
      intro w hw
      simp at hw
  | cons u us ih =>
      intro w hw
      constructor
      · intro hm
        exact integrateLoop_x_le hm
      · intro hle
        simp only [integrateLoop]
        rcases List.mem_cons.mp hw with rfl | hw'
        · rw [if_neg (not_lt.mpr hle)]
          exact List.mem_cons_self _ _
        · by_cases hx : rl < (integrateVeh dt u).x
          · rw [if_pos hx]
            exact (ih hw').mpr hle
          · rw [if_neg hx]
            exact List.mem_cons_of_mem _ ((ih hw').mpr hle)

/-- A candidate-loop result keeps the position and either keeps the lane
or moves to one of the candidate lanes. -/
lemma tryLanes_lane_x (vehicles : List Vehicle) (config : SimulationConfig)
    (veh : Vehicle) (accCurrent : ℝ) :
    ∀ cs, (tryLanes vehicles config veh accCurrent cs).x = veh.x ∧
      ((tryLanes vehicles config veh accCurrent cs).lane = veh.lane ∨
        (tryLanes vehicles config veh accCurrent cs).lane ∈ cs) := by
  intro cs
  induction cs with
  | nil => exact ⟨rfl, Or.inl rfl⟩
  | cons t ts ih =>
      rcases hfol : getFollower vehicles veh t with _ | f
      · simp only [tryLanes, hfol]
        split_ifs
        · exact ⟨rfl, Or.inr (List.mem_cons_self t ts)⟩
        · exact ⟨rfl, Or.inr (List.mem_cons_self t ts)⟩
        · rcases ih with ⟨hx, hl⟩
          exact ⟨hx, hl.imp id (List.mem_cons_of_mem t)⟩
      · simp only [tryLanes, hfol]
        split_ifs
        · rcases ih with ⟨hx, hl⟩
          exact ⟨hx, hl.imp id (List.mem_cons_of_mem t)⟩
        · exact ⟨rfl, Or.inr (List.mem_cons_self t ts)⟩
        · exact ⟨rfl, Or.inr (List.mem_cons_self t ts)⟩
        · rcases ih with ⟨hx, hl⟩
          exact ⟨hx, hl.imp id (List.mem_cons_of_mem t)⟩

/-- `checkLaneChange` keeps the position and keeps the lane inside
`[0, 2]` when it was there. -/
lemma checkLaneChange_lane_x (vehicles : List Vehicle)
    (config : SimulationConfig) (veh : Vehicle) (accCurrent : ℝ)
    (h0 : 0 ≤ veh.lane) (h2 : veh.lane ≤ 2) :
    (checkLaneChange vehicles config veh accCurrent).x = veh.x ∧
      0 ≤ (checkLaneChange vehicles config veh accCurrent).lane ∧
      (checkLaneChange vehicles config veh accCurrent).lane ≤ 2 := by
  rw [checkLaneChange]
  obtain ⟨hx, hl⟩ := tryLanes_lane_x vehicles config veh accCurrent
    ((if 0 < veh.lane then [veh.lane - 1] else []) ++
      (if veh.lane < lanesCount - 1 then [veh.lane + 1] else []))
  revert hx hl
  generalize tryLanes vehicles config veh accCurrent
    ((if 0 < veh.lane then [veh.lane - 1] else []) ++
      (if veh.lane < lanesCount - 1 then [veh.lane + 1] else [])) = res
  intro hx hl
  refine ⟨hx, ?_⟩
  rcases hl with hl | hl
  · rw [hl]
    exact ⟨h0, h2⟩
  · rcases List.mem_append.mp hl with hm | hm
    · by_cases hc : 0 < veh.lane
      · rw [if_pos hc] at hm
        simp only [List.mem_singleton] at hm
        exact ⟨by omega, by omega⟩
      · rw [if_neg hc] at hm
        simp at hm
    · by_cases hc : veh.lane < lanesCount - 1
      · rw [if_pos hc] at hm
        simp only [List.mem_singleton] at hm
        rw [lanesCount] at hc
        exact ⟨by omega, by omega⟩
      · rw [if_neg hc] at hm
        simp at hm

/-- Invariant form of `checkLaneChange_lane_x`, applying by unification
with the goal. -/
lemma checkLaneChange_inv (vehicles : List Vehicle)
    (config : SimulationConfig) (veh : Vehicle) (accCurrent : ℝ)
    (h : 0 ≤ veh.x ∧ 0 ≤ veh.lane ∧ veh.lane ≤ 2) :
    0 ≤ (checkLaneChange vehicles config veh accCurrent).x ∧
      0 ≤ (checkLaneChange vehicles config veh accCurrent).lane ∧
      (checkLaneChange vehicles config veh accCurrent).lane ≤ 2 := by
  obtain ⟨hx, hl0, hl2⟩ :=
    checkLaneChange_lane_x vehicles config veh accCurrent h.2.1 h.2.2
  rw [hx]
  exact ⟨h.1, hl0, hl2⟩

/-- The decide loop preserves nonnegative positions and lanes inside
`[0, 2]`. -/
lemma decideGo_inv (config : SimulationConfig) (dt : ℝ) :
    ∀ (fuel i : ℕ) (L : List Vehicle) (r : Rng),
      (∀ v ∈ L, 0 ≤ v.x ∧ 0 ≤ v.lane ∧ v.lane ≤ 2) →
      ∀ v ∈ (decideGo config dt fuel i L r).1,
        0 ≤ v.x ∧ 0 ≤ v.lane ∧ v.lane ≤ 2 := by
  intro fuel
  induction fuel with
  | zero =>
      intro i L r h v hv
      exact h v hv
  | succ n ih =>
      intro i L r h v hv
      simp only [decideGo] at hv
      by_cases hlen : i < L.length
      · rw [dif_pos hlen] at hv
        have hveh := h (L.get ⟨i, hlen⟩) (List.get_mem L i hlen)
        by_cases hcr : (L.get ⟨i, hlen⟩).isCrashed
        · rw [if_pos hcr] at hv
          refine ih _ _ _ ?_ v hv
          intro u hu
          rcases List.mem_or_eq_of_mem_set hu with hu' | rfl
          · exact h u hu'
          · exact hveh
        · rw [if_neg hcr] at hv
          by_cases ht : (L.get ⟨i, hlen⟩).laneChangeTimer ≤ 0
          · rw [if_pos ht] at hv
            refine ih _ _ _ ?_ v hv
            intro u hu
            rcases List.mem_or_eq_of_mem_set hu with hu' | rfl
            · rcases List.mem_or_eq_of_mem_set hu' with hu'' | rfl
              · exact h u hu''
              · exact hveh
            · exact checkLaneChange_inv _ config _ _
                ⟨hveh.1, hveh.2.1, hveh.2.2⟩
          · rw [if_neg ht] at hv
            refine ih _ _ _ ?_ v hv
            intro u hu
            rcases List.mem_or_eq_of_mem_set hu with hu' | rfl
            · rcases List.mem_or_eq_of_mem_set hu' with hu'' | rfl
              · exact h u hu''
              · exact hveh
            · exact hveh
      · rw [dif_neg hlen] at hv
        exact h v hv

/-- The decide loop never changes the underlying random stream function,
only the consumption index. -/
lemma decideGo_stream (config : SimulationConfig) (dt : ℝ) :
    ∀ (fuel i : ℕ) (L : List Vehicle) (r : Rng),
      ((decideGo config dt fuel i L r).2).stream = r.stream := by
  intro fuel
  induction fuel with
  | zero =>
      intro i L r
      rfl
  | succ n ih =>
      intro i L r
      simp only [decideGo]
      by_cases hlen : i < L.length
      · rw [dif_pos hlen]
        by_cases hcr : (L.get ⟨i, hlen⟩).isCrashed
        · rw [if_pos hcr]
          exact ih _ _ _
        · rw [if_neg hcr]
          by_cases hn : 0 < config.accelerationNoise ∧ 1 < (L.get ⟨i, hlen⟩).v
          · rw [if_pos hn]
            by_cases ht : (L.get ⟨i, hlen⟩).laneChangeTimer ≤ 0
            · rw [if_pos ht]
              exact ih _ _ _
            · rw [if_neg ht]
              exact ih _ _ _
          · rw [if_neg hn]
            by_cases ht : (L.get ⟨i, hlen⟩).laneChangeTimer ≤ 0
            · rw [if_pos ht]
              exact ih _ _ _
            · rw [if_neg ht]
              exact ih _ _ _
      · rw [dif_neg hlen]

end TrafficModel


/-- C6: after any `step(config)` (with `timeScale ≥ 0`, a nonnegative
road length, `Math.random` draws in `[0, 1]`, and vehicles that start
with nonnegative positions and lanes inside `[0, 2]`), every remaining
vehicle satisfies `v ≥ 0`, `0 ≤ x ≤ roadLength` and `lane ∈ [0, 2]`;
and a vehicle of the decide phase's output is kept by the integration
loop exactly when its integrated position does not exceed `roadLength`
(removed iff `x > roadLength` at end of integration). -/
theorem step_invariants (config : SimulationConfig) (s : TrafficModel)
    (r : Rng) (hts : 0 ≤ config.timeScale) (hrl : 0 ≤ s.roadLength)
    (hstream : ∀ j, 0 ≤ r.stream j ∧ r.stream j ≤ 1)
    (hpre : ∀ v ∈ s.vehicles, 0 ≤ v.x ∧ 0 ≤ v.lane ∧ v.lane ≤ 2) :
    (∀ v ∈ (step config s r).1.vehicles,
        0 ≤ v.v ∧ 0 ≤ v.x ∧ v.x ≤ s.roadLength ∧
          0 ≤ v.lane ∧ v.lane ≤ 2) ∧
      (∀ w ∈ (decideGo config (DT * config.timeScale)
          (sortByXDesc s.vehicles).length 0 (sortByXDesc s.vehicles) r).1,
        (integrateVeh (DT * config.timeScale) w ∈
            integrateLoop s.roadLength (DT * config.timeScale)
              (decideGo config (DT * config.timeScale)
                (sortByXDesc s.vehicles).length 0
                (sortByXDesc s.vehicles) r).1 ↔
          (integrateVeh (DT * config.timeScale) w).x ≤ s.roadLength)) := by
  have hdt : 0 ≤ DT * config.timeScale := by
    have hDT : (0 : ℝ) ≤ DT := by norm_num [DT]
    exact mul_nonneg hDT hts
  have hdecQ := decideGo_inv config (DT * config.timeScale)
    (sortByXDesc s.vehicles).length 0 (sortByXDesc s.vehicles) r
    (fun u hu => hpre u (mem_sortByXDesc.mp hu))
  constructor
  · intro v hv
    rw [step_vehicles] at hv
    rcases handleSpawning_vehicles (DT * config.timeScale) config _ _ with
      hsp | ⟨nv, hsp, _, hx0, _, hl0, hl2, hvb⟩
    · rw [hsp] at hv
      obtain ⟨w, hw, hveq⟩ := mem_integrateLoop hv
      obtain ⟨hwx, hwl0, hwl2⟩ := hdecQ w hw
      subst hveq
      refine ⟨integrateVeh_v_nonneg _ _,
        integrateVeh_x_nonneg _ _ hdt hwx,
        integrateLoop_x_le hv, ?_, ?_⟩
      · rw [integrateVeh_lane]
        exact hwl0
      · rw [integrateVeh_lane]
        exact hwl2
    · rw [hsp] at hv
      rcases List.mem_append.mp hv with hv' | hv'
      · obtain ⟨w, hw, hveq⟩ := mem_integrateLoop hv'
        obtain ⟨hwx, hwl0, hwl2⟩ := hdecQ w hw
        subst hveq
        refine ⟨integrateVeh_v_nonneg _ _,
          integrateVeh_x_nonneg _ _ hdt hwx,
          integrateLoop_x_le hv', ?_, ?_⟩
        · rw [integrateVeh_lane]
          exact hwl0
        · rw [integrateVeh_lane]
          exact hwl2
      · have hveq : v = nv := by simpa using hv'
        subst hveq
        have hstr : ∀ j, 0 ≤ ((decideGo config (DT * config.timeScale)
            (sortByXDesc s.vehicles).length 0
            (sortByXDesc s.vehicles) r).2).stream j ∧
            ((decideGo config (DT * config.timeScale)
            (sortByXDesc s.vehicles).length 0
            (sortByXDesc s.vehicles) r).2).stream j ≤ 1 := by
          intro j
          rw [decideGo_stream]
          exact hstream j
        refine ⟨hvb hstr, ?_, ?_, hl0, hl2⟩
        · rw [hx0]
        · rw [hx0]
          exact hrl
  · intro w hw
    exact integrateLoop_mem_iff hw

/-- Witness for `step_invariants` on `timerState`. -/
theorem step_invariants_witness :
    (∀ v ∈ (step baseConfig timerState zeroRng).1.vehicles,
        0 ≤ v.v ∧ 0 ≤ v.x ∧ v.x ≤ timerState.roadLength ∧
          0 ≤ v.lane ∧ v.lane ≤ 2) ∧
      (∀ w ∈ (decideGo baseConfig (DT * baseConfig.timeScale)
          (sortByXDesc timerState.vehicles).length 0
          (sortByXDesc timerState.vehicles) zeroRng).1,
        (integrateVeh (DT * baseConfig.timeScale) w ∈
            integrateLoop timerState.roadLength (DT * baseConfig.timeScale)
              (decideGo baseConfig (DT * baseConfig.timeScale)
                (sortByXDesc timerState.vehicles).length 0
                (sortByXDesc timerState.vehicles) zeroRng).1 ↔
          (integrateVeh (DT * baseConfig.timeScale) w).x ≤
            timerState.roadLength)) :=
  step_invariants baseConfig timerState zeroRng
    (by norm_num [baseConfig])
    (by norm_num [timerState, initialModel])
    (fun j => ⟨le_refl 0, by norm_num [zeroRng]⟩)
    (by
      intro v hv
      rw [show timerState.vehicles = [timerVeh] from rfl] at hv
      simp only [List.mem_singleton] at hv
      subst hv
      refine ⟨?_, ?_, ?_⟩ <;> norm_num [timerVeh, baseVeh])


/-! ### C10: reset and the statsTimer frame -/

/-- A populated model with `statsTimer = 0.99`, just short of the next
fundamental-diagram sampling instant. -/
noncomputable def demoState : TrafficModel :=
  { vehicles := [timerVeh]
    roadLength := 5000
    nextId := 7
    timeSinceLastSpawn := 3
    fdPoints := [{ k := 1, q := 2 }]
    statsTimer := 0.99
    blockedLane := some 1
    blockedLocation := some 2000 }

/-- A configuration with a very large inflow, so that a spawn attempt
triggers on the first step. -/
noncomputable def demoConfig : SimulationConfig :=
  { baseConfig with inflowRate := 1000000 }

/-- Projections of the spawner's result needed for the C10 consequence:
for a state with zero spawn timer and no vehicles, under `demoConfig`
the attempt triggers, the entry is clear, and exactly one vehicle is
spawned, while `fdPoints`, `statsTimer` and `roadLength` are kept. -/
lemma handleSpawning_demo (s1 : TrafficModel)
    (h0 : s1.timeSinceLastSpawn = 0) (hv : s1.vehicles = []) :
    (handleSpawning (DT * demoConfig.timeScale) demoConfig s1
        zeroRng).1.vehicles.length = 1 ∧
      (handleSpawning (DT * demoConfig.timeScale) demoConfig s1
        zeroRng).1.fdPoints = s1.fdPoints ∧
      (handleSpawning (DT * demoConfig.timeScale) demoConfig s1
        zeroRng).1.statsTimer = s1.statsTimer ∧
      (handleSpawning (DT * demoConfig.timeScale) demoConfig s1
        zeroRng).1.roadLength = s1.roadLength := by
  simp only [handleSpawning, h0, hv]
  rw [if_pos (show (Rng.val zeroRng * 0.4 + 0.8) *
      (1 / (demoConfig.inflowRate / 3600)) < 0 + DT * demoConfig.timeScale by
    norm_num [Rng.val, zeroRng, DT, demoConfig, baseConfig])]
  rw [if_pos (show clearanceOK (lastPos [] (bestLaneOf [])) by
    simp [clearanceOK, lastPos, lastVehOnLane])]
  refine ⟨?_, rfl, rfl, rfl⟩
  simp [spawnVehicle]

/-- C10: `reset()` empties the vehicle list and the FD ring, clears the
incident record, sets `nextId = 1` and `timeSinceLastSpawn = 0`, and
leaves `statsTimer` (and `roadLength`) unchanged.  Consequently a
fundamental-diagram sample can be appended less than one simulated
second after a reset: from `demoState` (whose `statsTimer` is 0.99),
one `step` under `demoConfig` — `dt = 1/60 < 1` — spawns a vehicle and
appends an FD sample. -/
theorem reset_spec :
    (∀ s : TrafficModel, (reset s).vehicles = [] ∧ (reset s).fdPoints = [] ∧
      (reset s).blockedLane = none ∧ (reset s).blockedLocation = none ∧
      (reset s).nextId = 1 ∧ (reset s).timeSinceLastSpawn = 0 ∧
      (reset s).statsTimer = s.statsTimer ∧
      (reset s).roadLength = s.roadLength) ∧
    ((step demoConfig (reset demoState) zeroRng).1.fdPoints.length = 1 ∧
      DT * demoConfig.timeScale < 1) := by
  refine ⟨fun s => ⟨rfl, rfl, rfl, rfl, rfl, rfl, rfl, rfl⟩, ?_,
    by norm_num [DT, demoConfig, baseConfig]⟩
  simp only [step]
  rw [show sortByXDesc (reset demoState).vehicles = [] from rfl]
  rw [show (([] : List Vehicle).length) = 0 from rfl]
  rw [show decideGo demoConfig (DT * demoConfig.timeScale) 0 0 [] zeroRng
    = ([], zeroRng) from rfl]
  rw [show integrateLoop (reset demoState).roadLength
    (DT * demoConfig.timeScale) [] = [] from rfl]
  rw [show (([] : List Vehicle), zeroRng).2 = zeroRng from rfl]
  obtain ⟨hlen, hfd, hst, hrl⟩ := handleSpawning_demo
    { reset demoState with vehicles := ([] : List Vehicle) } rfl rfl
  have hcount : (getStats (handleSpawning (DT * demoConfig.timeScale)
      demoConfig { reset demoState with vehicles := ([] : List Vehicle) }
      zeroRng).1).count = 1 := by
    simp only [getStats]
    split_ifs with h
    · rw [hlen] at h
      exact absurd h (by norm_num)
    · exact hlen
  split_ifs with h1 h2 h3
  · rw [hfd] at h3
    simp [reset, demoState] at h3
  · rw [hfd]
    simp [reset, demoState]
  · rw [hcount] at h2
    exact absurd h2 (by norm_num)
  · rw [hst] at h1
    apply absurd ?_ h1
    norm_num [reset, demoState, DT, demoConfig, baseConfig]
